import Mathlib

/-!
Verification of the simulation core of the gopher-pacsnekmaze game
(`src/main.go`).

The Go code is shallowly embedded as executable Lean definitions.
Modelling conventions, each justified where it is used:

* Go `int` is 64-bit; every quantity in the game (grid coordinates, the
  score, the frame counters) stays far below `2^63` on the inputs our
  theorems quantify over, so `Int` without a wrap is a faithful model.
* Go's `%` on `int` is truncated remainder, which is `Int.tmod`.
* `math.Hypot` is only ever used to *compare* distances between points
  with integer coordinates.  `Float` comparisons of `hypot` values agree
  with comparisons of the exact squared distances whenever the
  coordinates are below `2^25` (the gap between distinct square roots of
  integers `< 2^51` exceeds the rounding error of a faithful `hypot`),
  so the embedding compares integer squared distances (`dist2`).
* Go slice/array indexing panics when out of bounds and `%` panics on a
  zero divisor.  The primary definitions are total (out-of-range reads
  default); the `...Checked` variants return `none` exactly where the Go
  code would panic, and the safety theorem shows that on states
  satisfying the game invariant the checked run never returns `none`.
-/

/-! ## The embedded program, its checked instrumentation, and the
specification-side definitions -/

/-- Grid position or unit direction vector (`Point` in main.go). -/
structure Point where
  X : Int
  Y : Int
deriving DecidableEq, Repr

/-- A pursuer; a single grid position (`Enemy` in main.go). -/
structure Enemy where
  Position : Point
deriving DecidableEq, Repr

/-- The status enumeration (`GameState` in main.go). -/
inductive GameState where
  | StateStart
  | StatePlaying
  | StateGameOver
  | StateWin
deriving DecidableEq, Repr

/-- The simulation state (`Game` in main.go), restricted to the fields the
simulation core reads or writes; the font fields are rendering-only. -/
structure Game where
  snake : List Point
  foods : List Point
  exit : Point
  direction : Point
  nextDirection : Point
  score : Int
  state : GameState
  maze : List (List Bool)
  viewportX : Int
  mazeWidth : Int
  mazeHeight : Int
  moveCounter : Int
  enemies : List Enemy
  powerUpTimer : Int
  startBlinkCounter : Int
deriving DecidableEq, Repr

/-- `POWERUP_TIME` constant (300 frames, main.go:26). -/
def POWERUP_TIME : Int := 300

/-- `VIEWPORT_WIDTH = SCREEN_WIDTH / GRID_SIZE = 640 / 20 = 32` (main.go:24). -/
def VIEWPORT_WIDTH : Int := 640 / 20

/-- `g.snake[0]` as a total function; the Go read panics on an empty body,
which the checked variants track separately. -/
def headD (l : List Point) : Point := l.headD ⟨0, 0⟩

/-- The coordinate wrap `(a + d + w) % w` applied to both axes, as in
`moveSnake` (main.go:194-197) and `moveEnemy` (main.go:266-269).
`Int.tmod` is Go's truncated `%`. -/
def wrapPoint (w h : Int) (p d : Point) : Point :=
  ⟨(p.X + d.X + w).tmod w, (p.Y + d.Y + h).tmod h⟩

/-- Wall lookup `g.maze[p.Y][p.X]`, total with default `false`; the
checked variant `wallAtChecked` tracks the Go panic on a bad index. -/
def wallAt (maze : List (List Bool)) (p : Point) : Bool :=
  (maze.getD p.Y.toNat []).getD p.X.toNat false

/-- `isCollision` (main.go:320-330): wall cell, or any cell of
`g.snake[1:]` (the body without its first entry). -/
def isCollision (g : Game) (p : Point) : Bool :=
  if wallAt g.maze p then true
  else (g.snake.drop 1).any (fun s => s == p)

/-- The direction-commit step at the top of `moveSnake` (main.go:190-192):
the buffered direction is committed unless it is the exact negation of the
committed one. -/
def commitDirection (g : Game) : Game :=
  if g.nextDirection.X ≠ -g.direction.X ∨ g.nextDirection.Y ≠ -g.direction.Y then
    { g with direction := g.nextDirection }
  else g

/-- The candidate head `moveSnake` computes after the direction commit
(main.go:194-197). -/
def newHeadOf (g : Game) : Point :=
  wrapPoint g.mazeWidth g.mazeHeight (headD g.snake) g.direction

/-- The food-consumption loop of `moveSnake` (main.go:212-220): remove the
first food equal to the new head, keeping the order of the rest; `none`
when no food matches. -/
def eatFood : List Point → Point → Option (List Point)
  | [], _ => none
  | f :: fs, h => if f = h then some fs else (eatFood fs h).map (f :: ·)

/-- The scan of `checkEnemyCollision` (main.go:232): split the enemy list
around the first enemy standing on `h`; `none` when no enemy does. -/
def splitAtHead (h : Point) : List Enemy → Option (List Enemy × List Enemy)
  | [] => none
  | e :: es =>
    if e.Position = h then some ([], es)
    else (splitAtHead h es).map (fun ba => (e :: ba.1, ba.2))

/-- `checkEnemyCollision` (main.go:230-245): the first enemy on the head is
eaten (+5, removed) under an active power-up, else the game is lost; the
loop returns after the first match. -/
def checkEnemyCollision (g : Game) : Game :=
  match splitAtHead (headD g.snake) g.enemies with
  | none => g
  | some ba =>
    if 0 < g.powerUpTimer then
      { g with score := g.score + 5, enemies := ba.1 ++ ba.2 }
    else
      { g with state := GameState.StateGameOver }

/-- `adjustViewport` (main.go:332-345): dead-zone horizontal scrolling with
a final clamp to `[0, mazeWidth - VIEWPORT_WIDTH]`. -/
def adjustViewport (g : Game) : Game :=
  let snakeHead := headD g.snake
  let vx :=
    if VIEWPORT_WIDTH * 3 / 4 < snakeHead.X - g.viewportX then
      snakeHead.X - VIEWPORT_WIDTH * 3 / 4
    else if snakeHead.X - g.viewportX < VIEWPORT_WIDTH / 4 then
      snakeHead.X - VIEWPORT_WIDTH / 4
    else g.viewportX
  let vx :=
    if vx < 0 then 0
    else if g.mazeWidth - VIEWPORT_WIDTH < vx then g.mazeWidth - VIEWPORT_WIDTH
    else vx
  { g with viewportX := vx }

/-- `moveSnake` (main.go:189-228). -/
def moveSnake (g : Game) : Game :=
  let g1 := commitDirection g
  let newHead := newHeadOf g1
  if isCollision g1 newHead then { g1 with state := GameState.StateGameOver }
  else
    let g2 := { g1 with snake := newHead :: g1.snake }
    if newHead = g2.exit then { g2 with state := GameState.StateWin }
    else
      let g3 :=
        match eatFood g2.foods newHead with
        | some fs =>
          { g2 with score := g2.score + 1, foods := fs, powerUpTimer := POWERUP_TIME }
        | none => { g2 with snake := g2.snake.dropLast }
      adjustViewport (checkEnemyCollision g3)

/-- Exact squared Euclidean distance; stands for the `math.Hypot` values of
`getBestMoveTowards`/`getBestMoveAway`, compared instead of the floats (see
the module comment). -/
def dist2 (p q : Point) : Int :=
  (p.X - q.X) * (p.X - q.X) + (p.Y - q.Y) * (p.Y - q.Y)

/-- One iteration of the loop of `getBestMoveTowards` (main.go:280-293).
The accumulator's second component is `none` while `minDistance` still
holds `math.MaxFloat64`, which every real distance undercuts. -/
def stepTowards (g : Game) (src dst : Point) (acc : Point × Option Int) (move : Point) :
    Point × Option Int :=
  let newPos := wrapPoint g.mazeWidth g.mazeHeight src move
  if isCollision g newPos then acc
  else
    let d := dist2 newPos dst
    match acc.2 with
    | none => (move, some d)
    | some m => if d < m then (move, some d) else acc

/-- `getBestMoveTowards` (main.go:276-296). -/
def getBestMoveTowards (g : Game) (src dst : Point) (moves : List Point) : Point :=
  (moves.foldl (stepTowards g src dst) (⟨0, 0⟩, none)).1

/-- One iteration of the loop of `getBestMoveAway` (main.go:302-315); the
accumulator's second component starts at `maxDistance = 0.0`. -/
def stepAway (g : Game) (src dst : Point) (acc : Point × Int) (move : Point) :
    Point × Int :=
  let newPos := wrapPoint g.mazeWidth g.mazeHeight src move
  if isCollision g newPos then acc
  else
    let d := dist2 newPos dst
    if acc.2 < d then (move, d) else acc

/-- `getBestMoveAway` (main.go:298-318). -/
def getBestMoveAway (g : Game) (src dst : Point) (moves : List Point) : Point :=
  (moves.foldl (stepAway g src dst) (⟨0, 0⟩, 0)).1

/-- The fixed candidate list `possibleMoves` (main.go:255-257). -/
def cardinalMoves : List Point := [⟨1, 0⟩, ⟨-1, 0⟩, ⟨0, 1⟩, ⟨0, -1⟩]

/-- `moveEnemy` (main.go:253-274). -/
def moveEnemy (g : Game) (e : Enemy) : Enemy :=
  let snakeHead := headD g.snake
  let bestMove :=
    if 0 < g.powerUpTimer then getBestMoveAway g e.Position snakeHead cardinalMoves
    else getBestMoveTowards g e.Position snakeHead cardinalMoves
  let newPos := wrapPoint g.mazeWidth g.mazeHeight e.Position bestMove
  if isCollision g newPos then e else { Position := newPos }

/-- `moveEnemies` (main.go:247-251); `moveEnemy` reads only the snake, the
maze and the timer — not the enemy list — so the in-place loop is a map
over the original list. -/
def moveEnemies (g : Game) : Game :=
  { g with enemies := g.enemies.map (moveEnemy g) }

/-- The four directional key states sampled by `handleInput`. -/
structure DirInput where
  left : Bool
  right : Bool
  up : Bool
  down : Bool
deriving DecidableEq, Repr

/-- No key pressed. -/
def inpNone : DirInput := ⟨false, false, false, false⟩

/-- `handleInput` (main.go:174-187): each pressed arrow key overwrites the
buffered direction when the committed direction is not on that axis; the
tests read the committed direction, which this function never writes. -/
def handleInput (g : Game) (inp : DirInput) : Game :=
  let g := if inp.left ∧ g.direction.X = 0 then { g with nextDirection := ⟨-1, 0⟩ } else g
  let g := if inp.right ∧ g.direction.X = 0 then { g with nextDirection := ⟨1, 0⟩ } else g
  let g := if inp.up ∧ g.direction.Y = 0 then { g with nextDirection := ⟨0, -1⟩ } else g
  let g := if inp.down ∧ g.direction.Y = 0 then { g with nextDirection := ⟨0, 1⟩ } else g
  g

/-- The `StatePlaying` branch of `Update` (main.go:153-163): sample input,
advance the move counter, run one movement cycle (`moveSnake` then
`moveEnemies`) when it reaches 10, then decrement an active power-up
timer.  Note the movement cycle and the timer decrement run even when
`moveSnake` has just switched the status to a terminal value. -/
def updatePlaying (g : Game) (inp : DirInput) : Game :=
  let g := handleInput g inp
  let g := { g with moveCounter := g.moveCounter + 1 }
  let g :=
    if 10 ≤ g.moveCounter then moveEnemies (moveSnake { g with moveCounter := 0 })
    else g
  if 0 < g.powerUpTimer then { g with powerUpTimer := g.powerUpTimer - 1 } else g

/-- Accumulator of the character scan of `loadLevel` (main.go:111-135). -/
structure Parsed where
  foods : List Point
  snake : List Point
  exitP : Point
  enemies : List Enemy
  hasS : Bool
  hasE : Bool
deriving DecidableEq, Repr

/-- The empty accumulator before any character is read. -/
def emptyParsed : Parsed :=
  { foods := [], snake := [], exitP := ⟨0, 0⟩, enemies := [], hasS := false, hasE := false }

/-- One `switch char` step of `loadLevel` (main.go:120-133); walls are
handled by the maze grid, not the accumulator. -/
def parseChar (p : Parsed) (pos : Point) (c : Char) : Parsed :=
  if c = 'F' then { p with foods := p.foods ++ [pos] }
  else if c = 'S' then { p with snake := [pos], hasS := true }
  else if c = 'E' then { p with exitP := pos, hasE := true }
  else if c = 'X' then { p with enemies := p.enemies ++ [⟨pos⟩] }
  else p

/-- The inner `for x, char := range line` loop of `loadLevel`. -/
def parseLineAux (y : Int) : Int → Parsed → List Char → Parsed
  | _, p, [] => p
  | x, p, c :: cs => parseLineAux y (x + 1) (parseChar p ⟨x, y⟩ c) cs

/-- The outer `for y, line := range lines` loop of `loadLevel`. -/
def parseLinesAux : Int → Parsed → List (List Char) → Parsed
  | _, p, [] => p
  | y, p, l :: ls => parseLinesAux (y + 1) (parseLineAux y 0 p l) ls

/-- `loadLevel` (main.go:100-140) on pre-split lines, combined with the
fresh-state fields `NewGame` (main.go:66-76) sets.  The `log.Fatal` on a
missing start, exit or food is `none`.  The wall grid row for a line is
`line.map (· = '#')`, exactly the cells `maze[y][x] = true` sets when all
rows have the width `len(lines[0])` used to allocate them. -/
def loadLevel (lines : List (List Char)) : Option Game :=
  let p := parseLinesAux 0 emptyParsed lines
  if ¬p.hasS ∨ ¬p.hasE ∨ p.foods = [] then none
  else
    some
      { snake := p.snake
        foods := p.foods
        exit := p.exitP
        direction := ⟨1, 0⟩
        nextDirection := ⟨1, 0⟩
        score := 0
        state := GameState.StateStart
        maze := lines.map (fun l => l.map (fun c => c = '#'))
        viewportX := 0
        mazeWidth := (lines.headD []).length
        mazeHeight := lines.length
        moveCounter := 0
        enemies := p.enemies
        powerUpTimer := 0
        startBlinkCounter := 0 }

/-- Bounds-checked `g.maze[p.Y][p.X]`: `none` exactly where the Go read
would panic. -/
def wallAtChecked (maze : List (List Bool)) (p : Point) : Option Bool :=
  if 0 ≤ p.Y ∧ p.Y < (maze.length : Int) then
    let row := maze.getD p.Y.toNat []
    if 0 ≤ p.X ∧ p.X < (row.length : Int) then some (row.getD p.X.toNat false)
    else none
  else none

/-- Checked `isCollision`; the wall read precedes the `snake[1:]` slice, as
in the Go function, and an empty body makes that slice panic. -/
def isCollisionChecked (g : Game) (p : Point) : Option Bool :=
  match wallAtChecked g.maze p with
  | none => none
  | some true => some true
  | some false =>
    if g.snake.isEmpty then none
    else some ((g.snake.drop 1).any (fun s => s == p))

/-- Checked coordinate wrap: Go's `%` panics on a zero divisor. -/
def wrapPointChecked (w h : Int) (p d : Point) : Option Point :=
  if w = 0 ∨ h = 0 then none else some (wrapPoint w h p d)

/-- Checked `checkEnemyCollision` (reads `g.snake[0]`). -/
def checkEnemyCollisionChecked (g : Game) : Option Game :=
  if g.snake.isEmpty then none else some (checkEnemyCollision g)

/-- Checked `adjustViewport` (reads `g.snake[0]`). -/
def adjustViewportChecked (g : Game) : Option Game :=
  if g.snake.isEmpty then none else some (adjustViewport g)

/-- Checked `moveSnake`: `none` exactly where the Go function would panic. -/
def moveSnakeChecked (g : Game) : Option Game := do
  let g1 := commitDirection g
  let hd ← g1.snake.head?
  let newHead ← wrapPointChecked g1.mazeWidth g1.mazeHeight hd g1.direction
  let coll ← isCollisionChecked g1 newHead
  if coll then some { g1 with state := GameState.StateGameOver }
  else
    let g2 := { g1 with snake := newHead :: g1.snake }
    if newHead = g2.exit then some { g2 with state := GameState.StateWin }
    else
      let g3 :=
        match eatFood g2.foods newHead with
        | some fs =>
          { g2 with score := g2.score + 1, foods := fs, powerUpTimer := POWERUP_TIME }
        | none => { g2 with snake := g2.snake.dropLast }
      let g4 ← checkEnemyCollisionChecked g3
      adjustViewportChecked g4

/-- Checked loop step of `getBestMoveTowards`. -/
def stepTowardsChecked (g : Game) (src dst : Point) (acc : Option (Point × Option Int))
    (move : Point) : Option (Point × Option Int) := do
  let a ← acc
  let newPos ← wrapPointChecked g.mazeWidth g.mazeHeight src move
  let coll ← isCollisionChecked g newPos
  if coll then some a
  else
    let d := dist2 newPos dst
    match a.2 with
    | none => some (move, some d)
    | some m => if d < m then some (move, some d) else some a

/-- Checked `getBestMoveTowards`. -/
def getBestMoveTowardsChecked (g : Game) (src dst : Point) (moves : List Point) :
    Option Point :=
  (moves.foldl (stepTowardsChecked g src dst) (some (⟨0, 0⟩, none))).map Prod.fst

/-- Checked loop step of `getBestMoveAway`. -/
def stepAwayChecked (g : Game) (src dst : Point) (acc : Option (Point × Int))
    (move : Point) : Option (Point × Int) := do
  let a ← acc
  let newPos ← wrapPointChecked g.mazeWidth g.mazeHeight src move
  let coll ← isCollisionChecked g newPos
  if coll then some a
  else
    let d := dist2 newPos dst
    if a.2 < d then some (move, d) else some a

/-- Checked `getBestMoveAway`. -/
def getBestMoveAwayChecked (g : Game) (src dst : Point) (moves : List Point) :
    Option Point :=
  (moves.foldl (stepAwayChecked g src dst) (some (⟨0, 0⟩, 0))).map Prod.fst

/-- Checked `moveEnemy`. -/
def moveEnemyChecked (g : Game) (e : Enemy) : Option Enemy := do
  let snakeHead ← g.snake.head?
  let bestMove ←
    if 0 < g.powerUpTimer then getBestMoveAwayChecked g e.Position snakeHead cardinalMoves
    else getBestMoveTowardsChecked g e.Position snakeHead cardinalMoves
  let newPos ← wrapPointChecked g.mazeWidth g.mazeHeight e.Position bestMove
  let coll ← isCollisionChecked g newPos
  if coll then some e else some { Position := newPos }

/-- Sequential checked map over the enemy list; the first panic aborts the
whole loop, as in Go. -/
def mapOptEnemies (f : Enemy → Option Enemy) : List Enemy → Option (List Enemy)
  | [] => some []
  | e :: es => do
    let e' ← f e
    let es' ← mapOptEnemies f es
    some (e' :: es')

/-- Checked `moveEnemies`. -/
def moveEnemiesChecked (g : Game) : Option Game := do
  let es ← mapOptEnemies (moveEnemyChecked g) g.enemies
  some { g with enemies := es }

/-- Checked `StatePlaying` branch of `Update`. -/
def updatePlayingChecked (g : Game) (inp : DirInput) : Option Game := do
  let g := handleInput g inp
  let g := { g with moveCounter := g.moveCounter + 1 }
  let g ←
    if 10 ≤ g.moveCounter then do
      let g1 ← moveSnakeChecked { g with moveCounter := 0 }
      moveEnemiesChecked g1
    else some g
  if 0 < g.powerUpTimer then some { g with powerUpTimer := g.powerUpTimer - 1 } else some g

/-- A point lies inside the `w × h` grid. -/
def inBoundsP (w h : Int) (p : Point) : Prop :=
  0 ≤ p.X ∧ p.X < w ∧ 0 ≤ p.Y ∧ p.Y < h

instance (w h : Int) (p : Point) : Decidable (inBoundsP w h p) := by
  unfold inBoundsP; infer_instance

/-- Both components of a direction vector are in `[-1, 1]`; satisfied by
every direction the game ever stores. -/
def dirOK (d : Point) : Prop :=
  -1 ≤ d.X ∧ d.X ≤ 1 ∧ -1 ≤ d.Y ∧ d.Y ≤ 1

instance (d : Point) : Decidable (dirOK d) := by
  unfold dirOK; infer_instance

/-- One of the four unit cardinal direction vectors. -/
def isUnitDir (d : Point) : Prop :=
  d = ⟨1, 0⟩ ∨ d = ⟨-1, 0⟩ ∨ d = ⟨0, 1⟩ ∨ d = ⟨0, -1⟩

instance (d : Point) : Decidable (isUnitDir d) := by
  unfold isUnitDir; infer_instance

/-- The state invariant of a running game: positive grid dimensions, a maze
of exactly `mazeHeight` rows of `mazeWidth` cells, a non-empty snake, all
snake cells and enemy positions on the grid, and direction vectors with
components in `[-1, 1]`. -/
def GameInv (g : Game) : Prop :=
  0 < g.mazeWidth ∧ 0 < g.mazeHeight ∧
  (g.maze.length : Int) = g.mazeHeight ∧
  (∀ r ∈ g.maze, (r.length : Int) = g.mazeWidth) ∧
  g.snake ≠ [] ∧
  (∀ p ∈ g.snake, inBoundsP g.mazeWidth g.mazeHeight p) ∧
  (∀ e ∈ g.enemies, inBoundsP g.mazeWidth g.mazeHeight e.Position) ∧
  dirOK g.direction ∧ dirOK g.nextDirection

instance (g : Game) : Decidable (GameInv g) := by
  unfold GameInv; infer_instance

/-- The candidate moves whose wrapped destination survives the
`isCollision` filter of the enemy heuristics. -/
def survivors (g : Game) (src : Point) (moves : List Point) : List Point :=
  moves.filter (fun m => !isCollision g (wrapPoint g.mazeWidth g.mazeHeight src m))

/-- The value a candidate move is scored with: the squared distance from
its wrapped destination to `dst`. -/
def moveScore (g : Game) (src dst m : Point) : Int :=
  dist2 (wrapPoint g.mazeWidth g.mazeHeight src m) dst

/-- First element of the list attaining the minimal `f`-value, with that
value; ties keep the earlier element. -/
def firstMinBy (f : Point → Int) : List Point → Option (Point × Int)
  | [] => none
  | x :: xs =>
    match firstMinBy f xs with
    | none => some (x, f x)
    | some yv => if f x ≤ yv.2 then some (x, f x) else some yv

/-- First element of the list attaining the maximal `f`-value, with that
value; ties keep the earlier element. -/
def firstMaxBy (f : Point → Int) : List Point → Option (Point × Int)
  | [] => none
  | x :: xs =>
    match firstMaxBy f xs with
    | none => some (x, f x)
    | some yv => if yv.2 ≤ f x then some (x, f x) else some yv

/-- The pursuit choice, stated as the claim does: the first surviving
candidate (in evaluation order) at minimal distance, or the zero vector
when every candidate is discarded. -/
def specTowards (g : Game) (src dst : Point) (moves : List Point) : Point :=
  match firstMinBy (moveScore g src dst) (survivors g src moves) with
  | none => ⟨0, 0⟩
  | some yv => yv.1

/-- The evasion choice actually implemented: the first surviving candidate
at maximal distance, except that a maximum of zero (the destination *is*
the target) never beats the `0.0` the accumulator starts from. -/
def specAway (g : Game) (src dst : Point) (moves : List Point) : Point :=
  match firstMaxBy (moveScore g src dst) (survivors g src moves) with
  | none => ⟨0, 0⟩
  | some yv => if 0 < yv.2 then yv.1 else ⟨0, 0⟩

/-- An all-floor maze of `h` rows of `w` cells. -/
def floorMaze (w h : Nat) : List (List Bool) :=
  List.replicate h (List.replicate w false)

/-- A playing state on an all-floor 5×5 grid; the other concrete states
are record updates of this one. -/
def base5 : Game :=
  { snake := [⟨2, 2⟩]
    foods := [⟨0, 0⟩]
    exit := ⟨4, 4⟩
    direction := ⟨1, 0⟩
    nextDirection := ⟨1, 0⟩
    score := 0
    state := GameState.StatePlaying
    maze := floorMaze 5 5
    viewportX := 0
    mazeWidth := 5
    mazeHeight := 5
    moveCounter := 0
    enemies := []
    powerUpTimer := 0
    startBlinkCounter := 0 }

/-- Two-segment snake whose body blocks the cell left of an enemy. -/
def gC1 : Game := { base5 with snake := [⟨2, 2⟩, ⟨3, 2⟩] }

/-- About to step onto the exit with food still on the board. -/
def gC2 : Game := { base5 with exit := ⟨3, 2⟩, moveCounter := 9 }

/-- An enemy two cells right of the head; after both move they coincide. -/
def gC3 : Game :=
  { base5 with snake := [⟨0, 0⟩], foods := [⟨0, 4⟩],
               enemies := [⟨⟨2, 0⟩⟩], moveCounter := 9 }

/-- 3×3 maze walling off every enemy candidate except the head cell, with
an active power-up. -/
def gC4 : Game :=
  { base5 with
      snake := [⟨1, 1⟩]
      foods := [⟨0, 1⟩]
      exit := ⟨2, 1⟩
      maze := [[false, true, false], [false, false, false], [true, false, true]]
      mazeWidth := 3
      mazeHeight := 3
      enemies := [⟨⟨1, 2⟩⟩]
      powerUpTimer := 100 }

/-- About to run into a wall with an active power-up. -/
def gC5 : Game :=
  { base5 with
      snake := [⟨1, 1⟩]
      maze := [List.replicate 5 false, [false, false, true, false, false],
               List.replicate 5 false, List.replicate 5 false, List.replicate 5 false]
      moveCounter := 9
      powerUpTimer := 50 }

/-- About to step onto the exit while powered, with an enemy that will
still take its evasion step. -/
def gC6 : Game :=
  { base5 with snake := [⟨1, 1⟩], exit := ⟨2, 1⟩,
               enemies := [⟨⟨4, 1⟩⟩], moveCounter := 9, powerUpTimer := 10 }

/-- Head in the rightmost column of a 40-wide level: the shifted offset
gets clamped. -/
def gC8 : Game :=
  { base5 with snake := [⟨39, 0⟩], maze := floorMaze 40 1,
               mazeWidth := 40, mazeHeight := 1 }

/-- Every enemy-candidate cell of `gC4W` (including the head cell above
the enemy) is a wall, so the enemy cannot move. -/
def gC4W : Game :=
  { gC4 with maze := [[false, true, false], [false, true, false], [true, false, true]] }

/-- The candidate head a movement tick computes from a playing state and
the sampled input: the head plus the direction that survives the commit,
wrapped. -/
def candidateHead (g : Game) (inp : DirInput) : Point :=
  wrapPoint g.mazeWidth g.mazeHeight (headD g.snake)
    (commitDirection (handleInput g inp)).direction

/-- A powered state with an enemy standing on the head. -/
def gC3W : Game := { base5 with enemies := [⟨⟨2, 2⟩⟩], powerUpTimer := 7 }

/-- All positions collected by the parser are on the `w × h` grid, and a
seen start marker means a non-empty snake. -/
def PosOK (w h : Int) (p : Parsed) : Prop :=
  (∀ q ∈ p.foods, inBoundsP w h q) ∧ (∀ q ∈ p.snake, inBoundsP w h q) ∧
  (∀ e ∈ p.enemies, inBoundsP w h e.Position) ∧ (p.hasS = true → p.snake ≠ [])

/-- The part of the invariant the collision check needs: positive
dimensions, a well-shaped maze and a non-empty snake. -/
def MazeOK (g : Game) : Prop :=
  0 < g.mazeWidth ∧ 0 < g.mazeHeight ∧ (g.maze.length : Int) = g.mazeHeight ∧
  (∀ r ∈ g.maze, (r.length : Int) = g.mazeWidth) ∧ g.snake ≠ []

/-- A one-row level with a start, a food and an exit. -/
def linesW : List (List Char) := [['S', 'F', 'E']]

/-- The state `loadLevel` produces for `linesW`. -/
def gW0 : Game :=
  { snake := [⟨0, 0⟩]
    foods := [⟨1, 0⟩]
    exit := ⟨2, 0⟩
    direction := ⟨1, 0⟩
    nextDirection := ⟨1, 0⟩
    score := 0
    state := GameState.StateStart
    maze := [[false, false, false]]
    viewportX := 0
    mazeWidth := 3
    mazeHeight := 1
    moveCounter := 0
    enemies := []
    powerUpTimer := 0
    startBlinkCounter := 0 }

/-! ## Theorems -/

/-- `VIEWPORT_WIDTH` evaluates to 32 columns. -/
theorem VIEWPORT_WIDTH_eq : VIEWPORT_WIDTH = 32 := by decide

/-- Go's `(a + w) % w` equals the Euclidean remainder of `a` when the sum
is non-negative. -/
theorem tmod_shift (a w : Int) (hw : 0 < w) (ha : 0 ≤ a + w) :
    (a + w).tmod w = a % w := by
  rw [Int.tmod_eq_emod ha (by omega)]
  simp

/-- The wrap keeps an already-in-range coordinate fixed. -/
theorem tmod_shift_self (x w : Int) (hw : 0 < w) (hx : 0 ≤ x) (hxw : x < w) :
    (x + w).tmod w = x := by
  rw [tmod_shift x w hw (by omega)]
  exact Int.emod_eq_of_lt hx hxw

/-- Bounds of the wrap under the non-negativity the game maintains. -/
theorem tmod_shift_bounds (a w : Int) (hw : 0 < w) (ha : 0 ≤ a + w) :
    0 ≤ (a + w).tmod w ∧ (a + w).tmod w < w := by
  rw [Int.tmod_eq_emod ha (by omega)]
  exact ⟨Int.emod_nonneg _ (by omega), Int.emod_lt_of_pos _ hw⟩

/-- The wrapped destination is on the grid whenever the source coordinates
are non-negative and the direction components are at least `-1`. -/
theorem wrapPoint_inBounds (w h : Int) (p d : Point) (hw : 0 < w) (hh : 0 < h)
    (hpx : 0 ≤ p.X) (hpy : 0 ≤ p.Y) (hdx : -1 ≤ d.X) (hdy : -1 ≤ d.Y) :
    inBoundsP w h (wrapPoint w h p d) := by
  have hx := tmod_shift_bounds (p.X + d.X) w hw (by omega)
  have hy := tmod_shift_bounds (p.Y + d.Y) h hh (by omega)
  exact ⟨hx.1, hx.2, hy.1, hy.2⟩

/-- Wrapping with the zero vector fixes an in-range point. -/
theorem wrapPoint_zero (w h : Int) (p : Point) (hw : 0 < w) (hh : 0 < h)
    (hp : inBoundsP w h p) : wrapPoint w h p ⟨0, 0⟩ = p := by
  obtain ⟨h1, h2, h3, h4⟩ := hp
  unfold wrapPoint
  have hx := tmod_shift_self p.X w hw h1 h2
  have hy := tmod_shift_self p.Y h hh h3 h4
  simp only [add_zero] at *
  rw [hx, hy]

/-- C9 (confirmed): on a movement tick the new head is the coordinate-wise
sum of the head and the committed direction, wrapped modulo the level
width and height (toroidal re-entry on every edge); in particular a head
in the last column moving right lands in column 0 of the same row. -/
theorem C9_toroidal_wrap (g : Game) (hw : 0 < g.mazeWidth) (hh : 0 < g.mazeHeight)
    (hp : inBoundsP g.mazeWidth g.mazeHeight (headD g.snake))
    (hd : isUnitDir g.direction) :
    newHeadOf g =
      ⟨((headD g.snake).X + g.direction.X) % g.mazeWidth,
       ((headD g.snake).Y + g.direction.Y) % g.mazeHeight⟩ ∧
    ((headD g.snake).X = g.mazeWidth - 1 → g.direction = ⟨1, 0⟩ →
      newHeadOf g = ⟨0, (headD g.snake).Y⟩) := by
  obtain ⟨h1, h2, h3, h4⟩ := hp
  have hdx : -1 ≤ g.direction.X ∧ g.direction.X ≤ 1 := by
    rcases hd with h | h | h | h <;> rw [h] <;> exact ⟨by decide, by decide⟩
  have hdy : -1 ≤ g.direction.Y ∧ g.direction.Y ≤ 1 := by
    rcases hd with h | h | h | h <;> rw [h] <;> exact ⟨by decide, by decide⟩
  have hmain : newHeadOf g =
      ⟨((headD g.snake).X + g.direction.X) % g.mazeWidth,
       ((headD g.snake).Y + g.direction.Y) % g.mazeHeight⟩ := by
    unfold newHeadOf wrapPoint
    rw [tmod_shift _ _ hw (by omega), tmod_shift _ _ hh (by omega)]
  refine ⟨hmain, fun hx hdir => ?_⟩
  rw [hmain, hdir, hx]
  have : (g.mazeWidth - 1 + (1 : Int)) = g.mazeWidth := by ring
  rw [this]
  simp only [Point.mk.injEq]
  exact ⟨Int.emod_self, by rw [add_zero]; exact Int.emod_eq_of_lt h3 h4⟩

/-- Witness for C9 on a concrete in-range state. -/
theorem C9_toroidal_wrap_witness :
    newHeadOf { base5 with snake := [⟨4, 2⟩] } = ⟨0, 2⟩ :=
  ((C9_toroidal_wrap { base5 with snake := [⟨4, 2⟩] } (by decide) (by decide)
    (by decide) (by decide)).2 (by decide) (by decide))

/-- C1 (refuted as stated): the enemy candidate filter also discards
destinations occupied by the actor's body.  In `gC1` the cell `(3,2)` is
floor but is the snake's second segment: it is discarded, and the enemy at
`(4,2)` wraps right to `(0,2)` instead of stepping left onto `(3,2)`. -/
theorem C1_counterexample :
    isCollision gC1 ⟨3, 2⟩ = true ∧ wallAt gC1.maze ⟨3, 2⟩ = false ∧
    (moveEnemy gC1 ⟨⟨4, 2⟩⟩).Position = ⟨0, 2⟩ := by decide

/-- C1 (amended): a candidate move is discarded exactly when its wrapped
destination is a wall *or a cell of the actor's body other than its first
entry*; other enemies' positions never restrict the move (the heuristic
does not read the enemy list). -/
theorem C1_discard_rule (g : Game) (p : Point) (es : List Enemy) (e : Enemy) :
    (isCollision g p = true ↔ wallAt g.maze p = true ∨ p ∈ g.snake.drop 1) ∧
    moveEnemy { g with enemies := es } e = moveEnemy g e := by
  constructor
  · unfold isCollision
    cases hw : wallAt g.maze p <;> simp [hw, List.any_eq_true, beq_iff_eq]
  · rfl

/-- C8 (refuted as stated): with the head in column 39 of a 40-wide level
and offset 0, the head column exceeds the three-quarter mark, but the new
offset is the clamped `40 - 32 = 8`, not `39 - 24 = 15` as the claim
computes it. -/
theorem C8_counterexample :
    gC8.viewportX = 0 ∧ (headD gC8.snake).X = 39 ∧
    (adjustViewport gC8).viewportX = 8 ∧
    ¬((adjustViewport gC8).viewportX = 39 - VIEWPORT_WIDTH * 3 / 4) := by decide

/-- C8 (amended): starting from an offset already inside
`[0, width - VIEWPORT_WIDTH]` on a level at least as wide as the viewport,
the offset is unchanged when the head column is inside the dead zone, and
otherwise becomes the quarter- or three-quarter-shifted value *clamped* to
`[0, width - VIEWPORT_WIDTH]`; the result always lies in that interval. -/
theorem C8_viewport (g : Game) (hw : VIEWPORT_WIDTH ≤ g.mazeWidth)
    (h0 : 0 ≤ g.viewportX) (h1 : g.viewportX ≤ g.mazeWidth - VIEWPORT_WIDTH) :
    ((g.viewportX + VIEWPORT_WIDTH / 4 ≤ (headD g.snake).X ∧
      (headD g.snake).X ≤ g.viewportX + VIEWPORT_WIDTH * 3 / 4) →
      (adjustViewport g).viewportX = g.viewportX) ∧
    (g.viewportX + VIEWPORT_WIDTH * 3 / 4 < (headD g.snake).X →
      (adjustViewport g).viewportX =
        max 0 (min ((headD g.snake).X - VIEWPORT_WIDTH * 3 / 4)
          (g.mazeWidth - VIEWPORT_WIDTH))) ∧
    ((headD g.snake).X < g.viewportX + VIEWPORT_WIDTH / 4 →
      (adjustViewport g).viewportX =
        max 0 (min ((headD g.snake).X - VIEWPORT_WIDTH / 4)
          (g.mazeWidth - VIEWPORT_WIDTH))) ∧
    0 ≤ (adjustViewport g).viewportX ∧
    (adjustViewport g).viewportX ≤ g.mazeWidth - VIEWPORT_WIDTH := by
  rw [VIEWPORT_WIDTH_eq] at *
  unfold adjustViewport
  simp only [VIEWPORT_WIDTH_eq]
  norm_num
  split_ifs <;>
    refine ⟨fun hdz => by omega, fun hover => by omega, fun hunder => by omega, by omega, by omega⟩

/-- Witness for C8 on a concrete state: head inside the dead zone, offset
unchanged and in range. -/
theorem C8_viewport_witness :
    (adjustViewport { gC8 with snake := [⟨10, 0⟩] }).viewportX =
      ({ gC8 with snake := [⟨10, 0⟩] } : Game).viewportX ∧
    0 ≤ (adjustViewport { gC8 with snake := [⟨10, 0⟩] }).viewportX :=
  ⟨(C8_viewport { gC8 with snake := [⟨10, 0⟩] } (by decide) (by decide) (by decide)).1
    (by decide),
   (C8_viewport { gC8 with snake := [⟨10, 0⟩] } (by decide) (by decide) (by decide)).2.2.2.1⟩

/-- The element `firstMinBy` returns belongs to the list and carries its
own score. -/
theorem firstMinBy_mem (f : Point → Int) (l : List Point) (yv : Point × Int)
    (h : firstMinBy f l = some yv) : yv.1 ∈ l ∧ yv.2 = f yv.1 := by
  induction l generalizing yv with
  | nil => simp [firstMinBy] at h
  | cons x xs ih =>
    rw [firstMinBy] at h
    cases hfm : firstMinBy f xs with
    | none => rw [hfm] at h; cases h; exact ⟨List.mem_cons_self x xs, rfl⟩
    | some zv =>
      rw [hfm] at h
      dsimp only at h
      by_cases hle : f x ≤ zv.2
      · rw [if_pos hle] at h; cases h; exact ⟨List.mem_cons_self x xs, rfl⟩
      · rw [if_neg hle] at h; cases h
        obtain ⟨h1, h2⟩ := ih yv hfm; exact ⟨List.mem_cons_of_mem x h1, h2⟩

/-- The element `firstMaxBy` returns belongs to the list and carries its
own score. -/
theorem firstMaxBy_mem (f : Point → Int) (l : List Point) (yv : Point × Int)
    (h : firstMaxBy f l = some yv) : yv.1 ∈ l ∧ yv.2 = f yv.1 := by
  induction l generalizing yv with
  | nil => simp [firstMaxBy] at h
  | cons x xs ih =>
    rw [firstMaxBy] at h
    cases hfm : firstMaxBy f xs with
    | none => rw [hfm] at h; cases h; exact ⟨List.mem_cons_self x xs, rfl⟩
    | some zv =>
      rw [hfm] at h
      dsimp only at h
      by_cases hle : zv.2 ≤ f x
      · rw [if_pos hle] at h; cases h; exact ⟨List.mem_cons_self x xs, rfl⟩
      · rw [if_neg hle] at h; cases h
        obtain ⟨h1, h2⟩ := ih yv hfm; exact ⟨List.mem_cons_of_mem x h1, h2⟩

/-- The pursuit loop, started with a concrete best distance `m`, returns
the first survivor at the minimal score when that score beats `m`, and the
incoming best move otherwise. -/
theorem foldl_stepTowards_some (g : Game) (src dst : Point) (l : List Point)
    (b : Point) (m : Int) :
    (l.foldl (stepTowards g src dst) (b, some m)).1 =
      match firstMinBy (moveScore g src dst) (survivors g src l) with
      | none => b
      | some yv => if yv.2 < m then yv.1 else b := by
  induction l generalizing b m with
  | nil => simp [survivors, firstMinBy]
  | cons x xs ih =>
    rw [List.foldl_cons]
    by_cases hc : isCollision g (wrapPoint g.mazeWidth g.mazeHeight src x) = true
    · have hstep : stepTowards g src dst (b, some m) x = (b, some m) := by
        unfold stepTowards; simp [hc]
      have hsurv : survivors g src (x :: xs) = survivors g src xs := by
        unfold survivors; simp [List.filter_cons, hc]
      rw [hstep, hsurv, ih]
    · have hcf : isCollision g (wrapPoint g.mazeWidth g.mazeHeight src x) = false := by
        simpa using hc
      have hsurv : survivors g src (x :: xs) = x :: survivors g src xs := by
        unfold survivors; simp [List.filter_cons, hcf]
      rw [hsurv]
      by_cases hlt : moveScore g src dst x < m
      · have hlt' : dist2 (wrapPoint g.mazeWidth g.mazeHeight src x) dst < m := hlt
        have hstep : stepTowards g src dst (b, some m) x = (x, some (moveScore g src dst x)) := by
          unfold stepTowards; simp [hcf, hlt', moveScore]
        rw [hstep, ih]
        cases hfm : firstMinBy (moveScore g src dst) (survivors g src xs) with
        | none => simp [firstMinBy, hfm, hlt]
        | some yv =>
          simp only [firstMinBy, hfm]
          by_cases hle : moveScore g src dst x ≤ yv.2
          · simp only [if_pos hle]
            have : ¬yv.2 < moveScore g src dst x := by omega
            simp [this, hlt]
          · simp only [if_neg hle]
            have h1 : yv.2 < moveScore g src dst x := by omega
            have h2 : yv.2 < m := by omega
            simp [h1, h2]
      · have hlt' : ¬dist2 (wrapPoint g.mazeWidth g.mazeHeight src x) dst < m := hlt
        have hstep : stepTowards g src dst (b, some m) x = (b, some m) := by
          unfold stepTowards; simp [hcf, hlt']
        rw [hstep, ih]
        cases hfm : firstMinBy (moveScore g src dst) (survivors g src xs) with
        | none => simp [firstMinBy, hfm, hlt]
        | some yv =>
          simp only [firstMinBy, hfm]
          by_cases hle : moveScore g src dst x ≤ yv.2
          · simp only [if_pos hle]
            have h1 : ¬moveScore g src dst x < m := hlt
            have h2 : ¬yv.2 < m := by omega
            simp [h1, h2]
          · simp [if_neg hle]

/-- The pursuit loop from its initial `MaxFloat64` accumulator returns the
first survivor attaining the minimal score, or the zero vector if every
candidate is discarded. -/
theorem foldl_stepTowards_none (g : Game) (src dst : Point) (l : List Point) (b : Point) :
    (l.foldl (stepTowards g src dst) (b, none)).1 =
      match firstMinBy (moveScore g src dst) (survivors g src l) with
      | none => b
      | some yv => yv.1 := by
  induction l generalizing b with
  | nil => simp [survivors, firstMinBy]
  | cons x xs ih =>
    rw [List.foldl_cons]
    by_cases hc : isCollision g (wrapPoint g.mazeWidth g.mazeHeight src x) = true
    · have hstep : stepTowards g src dst (b, none) x = (b, none) := by
        unfold stepTowards; simp [hc]
      have hsurv : survivors g src (x :: xs) = survivors g src xs := by
        unfold survivors; simp [List.filter_cons, hc]
      rw [hstep, hsurv, ih]
    · have hcf : isCollision g (wrapPoint g.mazeWidth g.mazeHeight src x) = false := by
        simpa using hc
      have hsurv : survivors g src (x :: xs) = x :: survivors g src xs := by
        unfold survivors; simp [List.filter_cons, hcf]
      have hstep : stepTowards g src dst (b, none) x = (x, some (moveScore g src dst x)) := by
        unfold stepTowards moveScore; simp [hcf]
      rw [hsurv, hstep, foldl_stepTowards_some]
      cases hfm : firstMinBy (moveScore g src dst) (survivors g src xs) with
      | none => simp [firstMinBy, hfm]
      | some yv =>
        simp only [firstMinBy, hfm]
        by_cases hle : moveScore g src dst x ≤ yv.2
        · have : ¬yv.2 < moveScore g src dst x := by omega
          simp [hle, this]
        · have : yv.2 < moveScore g src dst x := by omega
          simp [hle, this]

/-- The evasion loop with incoming best distance `m` returns the first
survivor at the maximal score when that score beats `m`. -/
theorem foldl_stepAway_acc (g : Game) (src dst : Point) (l : List Point)
    (b : Point) (m : Int) :
    (l.foldl (stepAway g src dst) (b, m)).1 =
      match firstMaxBy (moveScore g src dst) (survivors g src l) with
      | none => b
      | some yv => if m < yv.2 then yv.1 else b := by
  induction l generalizing b m with
  | nil => simp [survivors, firstMaxBy]
  | cons x xs ih =>
    rw [List.foldl_cons]
    by_cases hc : isCollision g (wrapPoint g.mazeWidth g.mazeHeight src x) = true
    · have hstep : stepAway g src dst (b, m) x = (b, m) := by
        unfold stepAway; simp [hc]
      have hsurv : survivors g src (x :: xs) = survivors g src xs := by
        unfold survivors; simp [List.filter_cons, hc]
      rw [hstep, hsurv, ih]
    · have hcf : isCollision g (wrapPoint g.mazeWidth g.mazeHeight src x) = false := by
        simpa using hc
      have hsurv : survivors g src (x :: xs) = x :: survivors g src xs := by
        unfold survivors; simp [List.filter_cons, hcf]
      rw [hsurv]
      by_cases hlt : m < moveScore g src dst x
      · have hlt' : m < dist2 (wrapPoint g.mazeWidth g.mazeHeight src x) dst := hlt
        have hstep : stepAway g src dst (b, m) x = (x, moveScore g src dst x) := by
          unfold stepAway; simp [hcf, hlt', moveScore]
        rw [hstep, ih]
        cases hfm : firstMaxBy (moveScore g src dst) (survivors g src xs) with
        | none => simp [firstMaxBy, hfm, hlt]
        | some yv =>
          simp only [firstMaxBy, hfm]
          by_cases hle : yv.2 ≤ moveScore g src dst x
          · simp only [if_pos hle]
            have : ¬moveScore g src dst x < yv.2 := by omega
            simp [this, hlt]
          · simp only [if_neg hle]
            have h1 : moveScore g src dst x < yv.2 := by omega
            have h2 : m < yv.2 := by omega
            simp [h1, h2]
      · have hlt' : ¬m < dist2 (wrapPoint g.mazeWidth g.mazeHeight src x) dst := hlt
        have hstep : stepAway g src dst (b, m) x = (b, m) := by
          unfold stepAway; simp [hcf, hlt']
        rw [hstep, ih]
        cases hfm : firstMaxBy (moveScore g src dst) (survivors g src xs) with
        | none => simp [firstMaxBy, hfm, hlt]
        | some yv =>
          simp only [firstMaxBy, hfm]
          by_cases hle : yv.2 ≤ moveScore g src dst x
          · simp only [if_pos hle]
            have h1 : ¬m < moveScore g src dst x := hlt
            have h2 : ¬m < yv.2 := by omega
            simp [h1, h2]
          · simp [if_neg hle]

/-- The pursuit heuristic equals its first-argmin specification. -/
theorem getBestMoveTowards_eq_spec (g : Game) (src dst : Point) (moves : List Point) :
    getBestMoveTowards g src dst moves = specTowards g src dst moves := by
  unfold getBestMoveTowards specTowards
  rw [foldl_stepTowards_none]

/-- The evasion heuristic equals its zero-seeded first-argmax
specification. -/
theorem getBestMoveAway_eq_spec (g : Game) (src dst : Point) (moves : List Point) :
    getBestMoveAway g src dst moves = specAway g src dst moves := by
  unfold getBestMoveAway specAway
  rw [foldl_stepAway_acc]

/-- C4 (refuted as stated): in `gC4` the power-up is active and the only
surviving candidate is `(0,-1)`, whose destination is the head itself
(distance 0).  The claim makes this first surviving candidate the chosen
move, but the evasion loop's best-so-far starts at `0.0`, a distance of 0
never strictly improves on it, and the enemy stays at `(1,2)`. -/
theorem C4_counterexample :
    0 < gC4.powerUpTimer ∧
    survivors gC4 ⟨1, 2⟩ cardinalMoves = [⟨0, -1⟩] ∧
    wrapPoint gC4.mazeWidth gC4.mazeHeight ⟨1, 2⟩ ⟨0, -1⟩ = headD gC4.snake ∧
    getBestMoveAway gC4 ⟨1, 2⟩ (headD gC4.snake) cardinalMoves = ⟨0, 0⟩ ∧
    (⟨0, 0⟩ : Point) ∉ cardinalMoves ∧
    (moveEnemy gC4 ⟨⟨1, 2⟩⟩).Position = ⟨1, 2⟩ := by decide

/-- C4 (amended): the pursuit choice is the first candidate, in the order
right, left, down, up, whose *non-colliding* (not a wall and not a body
cell after the head) wrapped destination attains the minimal squared
distance, ties keeping the earlier candidate; the evasion choice is the
first survivor attaining the maximal squared distance *provided that
maximum is positive* (the best-so-far starts at zero, so a candidate
landing exactly on the head is never selected).  When no candidate is
selected the zero move results and the enemy's position is unchanged. -/
theorem C4_heuristic (g : Game) (e : Enemy) (hw : 0 < g.mazeWidth)
    (hh : 0 < g.mazeHeight) (he : inBoundsP g.mazeWidth g.mazeHeight e.Position) :
    (∀ src dst moves,
      getBestMoveTowards g src dst moves = specTowards g src dst moves ∧
      getBestMoveAway g src dst moves = specAway g src dst moves) ∧
    (survivors g e.Position cardinalMoves = [] → moveEnemy g e = e) := by
  refine ⟨fun src dst moves =>
    ⟨getBestMoveTowards_eq_spec g src dst moves, getBestMoveAway_eq_spec g src dst moves⟩,
    fun hsurv => ?_⟩
  simp only [moveEnemy]
  have hbz : (if 0 < g.powerUpTimer then
      getBestMoveAway g e.Position (headD g.snake) cardinalMoves
    else getBestMoveTowards g e.Position (headD g.snake) cardinalMoves) = ⟨0, 0⟩ := by
    by_cases hp : 0 < g.powerUpTimer
    · rw [if_pos hp, getBestMoveAway_eq_spec]
      unfold specAway
      rw [hsurv]
      rfl
    · rw [if_neg hp, getBestMoveTowards_eq_spec]
      unfold specTowards
      rw [hsurv]
      rfl
  rw [hbz, wrapPoint_zero g.mazeWidth g.mazeHeight e.Position hw hh he]
  split <;> rfl

/-- Witness for C4: with every candidate discarded the enemy stays put,
and the heuristics agree with their specifications on a concrete input. -/
theorem C4_heuristic_witness :
    moveEnemy gC4W ⟨⟨1, 2⟩⟩ = ⟨⟨1, 2⟩⟩ ∧
    getBestMoveTowards gC4W ⟨1, 2⟩ ⟨1, 1⟩ cardinalMoves =
      specTowards gC4W ⟨1, 2⟩ ⟨1, 1⟩ cardinalMoves :=
  ⟨(C4_heuristic gC4W ⟨⟨1, 2⟩⟩ (by decide) (by decide) (by decide)).2 (by decide),
   ((C4_heuristic gC4W ⟨⟨1, 2⟩⟩ (by decide) (by decide) (by decide)).1 ⟨1, 2⟩ ⟨1, 1⟩
     cardinalMoves).1⟩

/-- `handleInput` with no key pressed changes nothing. -/
theorem handleInput_none (g : Game) : handleInput g inpNone = g := rfl

/-- `commitDirection` writes only the `direction` field. -/
theorem commitDirection_eq (g : Game) :
    commitDirection g = { g with direction := (commitDirection g).direction } := by
  unfold commitDirection
  split <;> rfl

/-- `handleInput` writes only the `nextDirection` field. -/
theorem handleInput_eq (g : Game) (inp : DirInput) :
    handleInput g inp = { g with nextDirection := (handleInput g inp).nextDirection } := by
  simp only [handleInput]
  split <;> split <;> split <;> split <;> rfl

/-- `adjustViewport` writes only the `viewportX` field. -/
theorem adjustViewport_eq (g : Game) :
    adjustViewport g = { g with viewportX := (adjustViewport g).viewportX } := rfl

/-- `checkEnemyCollision` writes only the `score`, `enemies` and `state`
fields. -/
theorem checkEnemyCollision_eq (g : Game) :
    checkEnemyCollision g =
      { g with score := (checkEnemyCollision g).score,
               enemies := (checkEnemyCollision g).enemies,
               state := (checkEnemyCollision g).state } := by
  unfold checkEnemyCollision
  cases hsp : splitAtHead (headD g.snake) g.enemies with
  | none => rfl
  | some ba =>
    by_cases hp : 0 < g.powerUpTimer
    · simp only [if_pos hp]
    · simp only [if_neg hp]

/-- `moveEnemies` writes only the `enemies` field. -/
theorem moveEnemies_eq (g : Game) :
    moveEnemies g = { g with enemies := g.enemies.map (moveEnemy g) } := rfl

/-- `commitDirection` is determined by, and only reads, the two direction
fields. -/
theorem commitDirection_direction_congr (g1 g2 : Game)
    (h1 : g1.direction = g2.direction) (h2 : g1.nextDirection = g2.nextDirection) :
    (commitDirection g1).direction = (commitDirection g2).direction := by
  unfold commitDirection
  split <;> split <;> simp_all

/-- `isCollision` reads only the maze and the snake. -/
theorem isCollision_congr (g1 g2 : Game) (p : Point)
    (h1 : g1.maze = g2.maze) (h2 : g1.snake = g2.snake) :
    isCollision g1 p = isCollision g2 p := by
  unfold isCollision
  rw [h1, h2]

/-- `commitDirection` leaves the `snake` field unchanged. -/
@[simp] theorem commitDirection_snake (g : Game) : (commitDirection g).snake = g.snake := by
  rw [commitDirection_eq]

/-- `commitDirection` leaves the `foods` field unchanged. -/
@[simp] theorem commitDirection_foods (g : Game) : (commitDirection g).foods = g.foods := by
  rw [commitDirection_eq]

/-- `commitDirection` leaves the `exit` field unchanged. -/
@[simp] theorem commitDirection_exit (g : Game) : (commitDirection g).exit = g.exit := by
  rw [commitDirection_eq]

/-- `commitDirection` leaves the `nextDirection` field unchanged. -/
@[simp] theorem commitDirection_nextDirection (g : Game) :
    (commitDirection g).nextDirection = g.nextDirection := by
  rw [commitDirection_eq]

/-- `commitDirection` leaves the `score` field unchanged. -/
@[simp] theorem commitDirection_score (g : Game) : (commitDirection g).score = g.score := by
  rw [commitDirection_eq]

/-- `commitDirection` leaves the `state` field unchanged. -/
@[simp] theorem commitDirection_state (g : Game) : (commitDirection g).state = g.state := by
  rw [commitDirection_eq]

/-- `commitDirection` leaves the `maze` field unchanged. -/
@[simp] theorem commitDirection_maze (g : Game) : (commitDirection g).maze = g.maze := by
  rw [commitDirection_eq]

/-- `commitDirection` leaves the `viewportX` field unchanged. -/
@[simp] theorem commitDirection_viewportX (g : Game) :
    (commitDirection g).viewportX = g.viewportX := by
  rw [commitDirection_eq]

/-- `commitDirection` leaves the `mazeWidth` field unchanged. -/
@[simp] theorem commitDirection_mazeWidth (g : Game) :
    (commitDirection g).mazeWidth = g.mazeWidth := by
  rw [commitDirection_eq]

/-- `commitDirection` leaves the `mazeHeight` field unchanged. -/
@[simp] theorem commitDirection_mazeHeight (g : Game) :
    (commitDirection g).mazeHeight = g.mazeHeight := by
  rw [commitDirection_eq]

/-- `commitDirection` leaves the `moveCounter` field unchanged. -/
@[simp] theorem commitDirection_moveCounter (g : Game) :
    (commitDirection g).moveCounter = g.moveCounter := by
  rw [commitDirection_eq]

/-- `commitDirection` leaves the `enemies` field unchanged. -/
@[simp] theorem commitDirection_enemies (g : Game) :
    (commitDirection g).enemies = g.enemies := by
  rw [commitDirection_eq]

/-- `commitDirection` leaves the `powerUpTimer` field unchanged. -/
@[simp] theorem commitDirection_powerUpTimer (g : Game) :
    (commitDirection g).powerUpTimer = g.powerUpTimer := by
  rw [commitDirection_eq]

/-- `handleInput` leaves the `snake` field unchanged. -/
@[simp] theorem handleInput_snake (g : Game) (inp : DirInput) :
    (handleInput g inp).snake = g.snake := by
  rw [handleInput_eq]

/-- `handleInput` leaves the `foods` field unchanged. -/
@[simp] theorem handleInput_foods (g : Game) (inp : DirInput) :
    (handleInput g inp).foods = g.foods := by
  rw [handleInput_eq]

/-- `handleInput` leaves the `exit` field unchanged. -/
@[simp] theorem handleInput_exit (g : Game) (inp : DirInput) :
    (handleInput g inp).exit = g.exit := by
  rw [handleInput_eq]

/-- `handleInput` leaves the `direction` field unchanged. -/
@[simp] theorem handleInput_direction (g : Game) (inp : DirInput) :
    (handleInput g inp).direction = g.direction := by
  rw [handleInput_eq]

/-- `handleInput` leaves the `score` field unchanged. -/
@[simp] theorem handleInput_score (g : Game) (inp : DirInput) :
    (handleInput g inp).score = g.score := by
  rw [handleInput_eq]

/-- `handleInput` leaves the `state` field unchanged. -/
@[simp] theorem handleInput_state (g : Game) (inp : DirInput) :
    (handleInput g inp).state = g.state := by
  rw [handleInput_eq]

/-- `handleInput` leaves the `maze` field unchanged. -/
@[simp] theorem handleInput_maze (g : Game) (inp : DirInput) :
    (handleInput g inp).maze = g.maze := by
  rw [handleInput_eq]

/-- `handleInput` leaves the `viewportX` field unchanged. -/
@[simp] theorem handleInput_viewportX (g : Game) (inp : DirInput) :
    (handleInput g inp).viewportX = g.viewportX := by
  rw [handleInput_eq]

/-- `handleInput` leaves the `mazeWidth` field unchanged. -/
@[simp] theorem handleInput_mazeWidth (g : Game) (inp : DirInput) :
    (handleInput g inp).mazeWidth = g.mazeWidth := by
  rw [handleInput_eq]

/-- `handleInput` leaves the `mazeHeight` field unchanged. -/
@[simp] theorem handleInput_mazeHeight (g : Game) (inp : DirInput) :
    (handleInput g inp).mazeHeight = g.mazeHeight := by
  rw [handleInput_eq]

/-- `handleInput` leaves the `moveCounter` field unchanged. -/
@[simp] theorem handleInput_moveCounter (g : Game) (inp : DirInput) :
    (handleInput g inp).moveCounter = g.moveCounter := by
  rw [handleInput_eq]

/-- `handleInput` leaves the `enemies` field unchanged. -/
@[simp] theorem handleInput_enemies (g : Game) (inp : DirInput) :
    (handleInput g inp).enemies = g.enemies := by
  rw [handleInput_eq]

/-- `handleInput` leaves the `powerUpTimer` field unchanged. -/
@[simp] theorem handleInput_powerUpTimer (g : Game) (inp : DirInput) :
    (handleInput g inp).powerUpTimer = g.powerUpTimer := by
  rw [handleInput_eq]

/-- `adjustViewport` leaves the `snake` field unchanged. -/
@[simp] theorem adjustViewport_snake (g : Game) : (adjustViewport g).snake = g.snake := by
  rw [adjustViewport_eq]

/-- `adjustViewport` leaves the `foods` field unchanged. -/
@[simp] theorem adjustViewport_foods (g : Game) : (adjustViewport g).foods = g.foods := by
  rw [adjustViewport_eq]

/-- `adjustViewport` leaves the `exit` field unchanged. -/
@[simp] theorem adjustViewport_exit (g : Game) : (adjustViewport g).exit = g.exit := by
  rw [adjustViewport_eq]

/-- `adjustViewport` leaves the `direction` field unchanged. -/
@[simp] theorem adjustViewport_direction (g : Game) :
    (adjustViewport g).direction = g.direction := by
  rw [adjustViewport_eq]

/-- `adjustViewport` leaves the `nextDirection` field unchanged. -/
@[simp] theorem adjustViewport_nextDirection (g : Game) :
    (adjustViewport g).nextDirection = g.nextDirection := by
  rw [adjustViewport_eq]

/-- `adjustViewport` leaves the `score` field unchanged. -/
@[simp] theorem adjustViewport_score (g : Game) : (adjustViewport g).score = g.score := by
  rw [adjustViewport_eq]

/-- `adjustViewport` leaves the `state` field unchanged. -/
@[simp] theorem adjustViewport_state (g : Game) : (adjustViewport g).state = g.state := by
  rw [adjustViewport_eq]

/-- `adjustViewport` leaves the `maze` field unchanged. -/
@[simp] theorem adjustViewport_maze (g : Game) : (adjustViewport g).maze = g.maze := by
  rw [adjustViewport_eq]

/-- `adjustViewport` leaves the `mazeWidth` field unchanged. -/
@[simp] theorem adjustViewport_mazeWidth (g : Game) :
    (adjustViewport g).mazeWidth = g.mazeWidth := by
  rw [adjustViewport_eq]

/-- `adjustViewport` leaves the `mazeHeight` field unchanged. -/
@[simp] theorem adjustViewport_mazeHeight (g : Game) :
    (adjustViewport g).mazeHeight = g.mazeHeight := by
  rw [adjustViewport_eq]

/-- `adjustViewport` leaves the `moveCounter` field unchanged. -/
@[simp] theorem adjustViewport_moveCounter (g : Game) :
    (adjustViewport g).moveCounter = g.moveCounter := by
  rw [adjustViewport_eq]

/-- `adjustViewport` leaves the `enemies` field unchanged. -/
@[simp] theorem adjustViewport_enemies (g : Game) :
    (adjustViewport g).enemies = g.enemies := by
  rw [adjustViewport_eq]

/-- `adjustViewport` leaves the `powerUpTimer` field unchanged. -/
@[simp] theorem adjustViewport_powerUpTimer (g : Game) :
    (adjustViewport g).powerUpTimer = g.powerUpTimer := by
  rw [adjustViewport_eq]

/-- `checkEnemyCollision` leaves the `snake` field unchanged. -/
@[simp] theorem checkEnemyCollision_snake (g : Game) :
    (checkEnemyCollision g).snake = g.snake := by
  rw [checkEnemyCollision_eq]

/-- `checkEnemyCollision` leaves the `foods` field unchanged. -/
@[simp] theorem checkEnemyCollision_foods (g : Game) :
    (checkEnemyCollision g).foods = g.foods := by
  rw [checkEnemyCollision_eq]

/-- `checkEnemyCollision` leaves the `exit` field unchanged. -/
@[simp] theorem checkEnemyCollision_exit (g : Game) :
    (checkEnemyCollision g).exit = g.exit := by
  rw [checkEnemyCollision_eq]

/-- `checkEnemyCollision` leaves the `direction` field unchanged. -/
@[simp] theorem checkEnemyCollision_direction (g : Game) :
    (checkEnemyCollision g).direction = g.direction := by
  rw [checkEnemyCollision_eq]

/-- `checkEnemyCollision` leaves the `nextDirection` field unchanged. -/
@[simp] theorem checkEnemyCollision_nextDirection (g : Game) :
    (checkEnemyCollision g).nextDirection = g.nextDirection := by
  rw [checkEnemyCollision_eq]

/-- `checkEnemyCollision` leaves the `maze` field unchanged. -/
@[simp] theorem checkEnemyCollision_maze (g : Game) :
    (checkEnemyCollision g).maze = g.maze := by
  rw [checkEnemyCollision_eq]

/-- `checkEnemyCollision` leaves the `viewportX` field unchanged. -/
@[simp] theorem checkEnemyCollision_viewportX (g : Game) :
    (checkEnemyCollision g).viewportX = g.viewportX := by
  rw [checkEnemyCollision_eq]

/-- `checkEnemyCollision` leaves the `mazeWidth` field unchanged. -/
@[simp] theorem checkEnemyCollision_mazeWidth (g : Game) :
    (checkEnemyCollision g).mazeWidth = g.mazeWidth := by
  rw [checkEnemyCollision_eq]

/-- `checkEnemyCollision` leaves the `mazeHeight` field unchanged. -/
@[simp] theorem checkEnemyCollision_mazeHeight (g : Game) :
    (checkEnemyCollision g).mazeHeight = g.mazeHeight := by
  rw [checkEnemyCollision_eq]

/-- `checkEnemyCollision` leaves the `moveCounter` field unchanged. -/
@[simp] theorem checkEnemyCollision_moveCounter (g : Game) :
    (checkEnemyCollision g).moveCounter = g.moveCounter := by
  rw [checkEnemyCollision_eq]

/-- `checkEnemyCollision` leaves the `powerUpTimer` field unchanged. -/
@[simp] theorem checkEnemyCollision_powerUpTimer (g : Game) :
    (checkEnemyCollision g).powerUpTimer = g.powerUpTimer := by
  rw [checkEnemyCollision_eq]

/-- `moveEnemies` leaves the `snake` field unchanged. -/
@[simp] theorem moveEnemies_snake (g : Game) : (moveEnemies g).snake = g.snake := rfl

/-- `moveEnemies` leaves the `foods` field unchanged. -/
@[simp] theorem moveEnemies_foods (g : Game) : (moveEnemies g).foods = g.foods := rfl

/-- `moveEnemies` leaves the `exit` field unchanged. -/
@[simp] theorem moveEnemies_exit (g : Game) : (moveEnemies g).exit = g.exit := rfl

/-- `moveEnemies` leaves the `direction` field unchanged. -/
@[simp] theorem moveEnemies_direction (g : Game) :
    (moveEnemies g).direction = g.direction := rfl

/-- `moveEnemies` leaves the `nextDirection` field unchanged. -/
@[simp] theorem moveEnemies_nextDirection (g : Game) :
    (moveEnemies g).nextDirection = g.nextDirection := rfl

/-- `moveEnemies` leaves the `score` field unchanged. -/
@[simp] theorem moveEnemies_score (g : Game) : (moveEnemies g).score = g.score := rfl

/-- `moveEnemies` leaves the `state` field unchanged. -/
@[simp] theorem moveEnemies_state (g : Game) : (moveEnemies g).state = g.state := rfl

/-- `moveEnemies` leaves the `maze` field unchanged. -/
@[simp] theorem moveEnemies_maze (g : Game) : (moveEnemies g).maze = g.maze := rfl

/-- `moveEnemies` leaves the `viewportX` field unchanged. -/
@[simp] theorem moveEnemies_viewportX (g : Game) :
    (moveEnemies g).viewportX = g.viewportX := rfl

/-- `moveEnemies` leaves the `mazeWidth` field unchanged. -/
@[simp] theorem moveEnemies_mazeWidth (g : Game) :
    (moveEnemies g).mazeWidth = g.mazeWidth := rfl

/-- `moveEnemies` leaves the `mazeHeight` field unchanged. -/
@[simp] theorem moveEnemies_mazeHeight (g : Game) :
    (moveEnemies g).mazeHeight = g.mazeHeight := rfl

/-- `moveEnemies` leaves the `moveCounter` field unchanged. -/
@[simp] theorem moveEnemies_moveCounter (g : Game) :
    (moveEnemies g).moveCounter = g.moveCounter := rfl

/-- `moveEnemies` leaves the `powerUpTimer` field unchanged. -/
@[simp] theorem moveEnemies_powerUpTimer (g : Game) :
    (moveEnemies g).powerUpTimer = g.powerUpTimer := rfl

/-- The enemy sweep preserves the number of enemies. -/
@[simp] theorem moveEnemies_enemies_length (g : Game) :
    (moveEnemies g).enemies.length = g.enemies.length := by
  simp [moveEnemies]

/-- Collision branch of `moveSnake` (main.go:199-202). -/
theorem moveSnake_collision (g : Game)
    (h : isCollision (commitDirection g) (newHeadOf (commitDirection g)) = true) :
    moveSnake g = { commitDirection g with state := GameState.StateGameOver } := by
  simp only [moveSnake]
  rw [if_pos h]

/-- Exit branch of `moveSnake` (main.go:204-209). -/
theorem moveSnake_win (g : Game)
    (hnc : isCollision (commitDirection g) (newHeadOf (commitDirection g)) = false)
    (hex : newHeadOf (commitDirection g) = (commitDirection g).exit) :
    moveSnake g =
      { commitDirection g with
          snake := newHeadOf (commitDirection g) :: (commitDirection g).snake,
          state := GameState.StateWin } := by
  have hnc' : ¬isCollision (commitDirection g) (newHeadOf (commitDirection g)) = true := by
    rw [hnc]; simp
  simp only [moveSnake]
  rw [if_neg hnc', if_pos hex]

/-- Ordinary branch of `moveSnake` (main.go:211-227): food resolution, then
the enemy check, then the viewport. -/
theorem moveSnake_step (g : Game)
    (hnc : isCollision (commitDirection g) (newHeadOf (commitDirection g)) = false)
    (hex : newHeadOf (commitDirection g) ≠ (commitDirection g).exit) :
    moveSnake g =
      adjustViewport (checkEnemyCollision
        (match eatFood (commitDirection g).foods (newHeadOf (commitDirection g)) with
         | some fs =>
           { commitDirection g with
               snake := newHeadOf (commitDirection g) :: (commitDirection g).snake,
               score := (commitDirection g).score + 1, foods := fs,
               powerUpTimer := POWERUP_TIME }
         | none =>
           { commitDirection g with
               snake :=
                 (newHeadOf (commitDirection g) :: (commitDirection g).snake).dropLast })) := by
  have hnc' : ¬isCollision (commitDirection g) (newHeadOf (commitDirection g)) = true := by
    rw [hnc]; simp
  simp only [moveSnake]
  rw [if_neg hnc', if_neg hex]

/-- Fields of the game `moveSnake` never writes. -/
theorem moveSnake_preserved (g : Game) :
    (moveSnake g).nextDirection = g.nextDirection ∧ (moveSnake g).exit = g.exit ∧
    (moveSnake g).maze = g.maze ∧ (moveSnake g).mazeWidth = g.mazeWidth ∧
    (moveSnake g).mazeHeight = g.mazeHeight ∧ (moveSnake g).moveCounter = g.moveCounter ∧
    (moveSnake g).direction = (commitDirection g).direction := by
  by_cases hc : isCollision (commitDirection g) (newHeadOf (commitDirection g)) = true
  · rw [moveSnake_collision g hc]
    simp
  · have hcf : isCollision (commitDirection g) (newHeadOf (commitDirection g)) = false := by
      simpa using hc
    by_cases hex : newHeadOf (commitDirection g) = (commitDirection g).exit
    · rw [moveSnake_win g hcf hex]
      simp
    · rw [moveSnake_step g hcf hex]
      cases heat : eatFood (commitDirection g).foods (newHeadOf (commitDirection g)) <;>
        simp

/-- `moveSnake` leaves the `nextDirection` field unchanged. -/
@[simp] theorem moveSnake_nextDirection (g : Game) :
    (moveSnake g).nextDirection = g.nextDirection := (moveSnake_preserved g).1

/-- `moveSnake` leaves the `exit` field unchanged. -/
@[simp] theorem moveSnake_exit (g : Game) : (moveSnake g).exit = g.exit :=
  (moveSnake_preserved g).2.1

/-- `moveSnake` leaves the `maze` field unchanged. -/
@[simp] theorem moveSnake_maze (g : Game) : (moveSnake g).maze = g.maze :=
  (moveSnake_preserved g).2.2.1

/-- `moveSnake` leaves the `mazeWidth` field unchanged. -/
@[simp] theorem moveSnake_mazeWidth (g : Game) : (moveSnake g).mazeWidth = g.mazeWidth :=
  (moveSnake_preserved g).2.2.2.1

/-- `moveSnake` leaves the `mazeHeight` field unchanged. -/
@[simp] theorem moveSnake_mazeHeight (g : Game) : (moveSnake g).mazeHeight = g.mazeHeight :=
  (moveSnake_preserved g).2.2.2.2.1

/-- `moveSnake` leaves the `moveCounter` field unchanged. -/
@[simp] theorem moveSnake_moveCounter (g : Game) :
    (moveSnake g).moveCounter = g.moveCounter := (moveSnake_preserved g).2.2.2.2.2.1

/-- After `moveSnake` the stored direction is the committed one. -/
theorem moveSnake_direction (g : Game) :
    (moveSnake g).direction = (commitDirection g).direction :=
  (moveSnake_preserved g).2.2.2.2.2.2

/-- A buffered exact reversal leaves `commitDirection` a no-op. -/
theorem commitDirection_rev (g : Game)
    (h : g.nextDirection = ⟨-g.direction.X, -g.direction.Y⟩) : commitDirection g = g := by
  unfold commitDirection
  rw [if_neg]
  simp [h]

/-- Any buffered direction other than the exact reversal is committed. -/
theorem commitDirection_commit (g : Game)
    (h : ¬(g.nextDirection.X = -g.direction.X ∧ g.nextDirection.Y = -g.direction.Y)) :
    commitDirection g = { g with direction := g.nextDirection } := by
  unfold commitDirection
  rw [if_pos (by omega)]

/-- On a movement tick (`moveCounter` reaching 10), `updatePlaying` is the
snake move followed by the enemy moves and the timer decrement. -/
theorem updatePlaying_moveTick (g : Game) (inp : DirInput)
    (htick : 10 ≤ g.moveCounter + 1) :
    updatePlaying g inp =
      (let gm := moveEnemies (moveSnake { handleInput g inp with moveCounter := 0 });
       if 0 < gm.powerUpTimer then { gm with powerUpTimer := gm.powerUpTimer - 1 }
       else gm) := by
  have hcond : 10 ≤ (handleInput g inp).moveCounter + 1 := by
    rw [handleInput_moveCounter]; exact htick
  simp only [updatePlaying]
  rw [if_pos hcond]

/-- Off a movement tick, `updatePlaying` only samples input, advances the
counter and decrements an active timer. -/
theorem updatePlaying_skipTick (g : Game) (inp : DirInput)
    (htick : ¬10 ≤ g.moveCounter + 1) :
    updatePlaying g inp =
      (let gi := { handleInput g inp with moveCounter := g.moveCounter + 1 };
       if 0 < g.powerUpTimer then { gi with powerUpTimer := g.powerUpTimer - 1 }
       else gi) := by
  have hcond : ¬10 ≤ (handleInput g inp).moveCounter + 1 := by
    rw [handleInput_moveCounter]; exact htick
  simp only [updatePlaying]
  rw [if_neg hcond]
  simp only [handleInput_powerUpTimer, handleInput_moveCounter]

/-- `updatePlaying` with no keys pressed does not change the two direction
fields while an exact reversal is buffered. -/
theorem updatePlaying_rev (s : Game)
    (hs : s.nextDirection = ⟨-s.direction.X, -s.direction.Y⟩) :
    (updatePlaying s inpNone).direction = s.direction ∧
    (updatePlaying s inpNone).nextDirection = s.nextDirection := by
  by_cases htick : 10 ≤ s.moveCounter + 1
  · rw [updatePlaying_moveTick s inpNone htick]
    have hrev' : commitDirection { s with moveCounter := 0 } = { s with moveCounter := 0 } :=
      commitDirection_rev _ hs
    constructor
    · simp only []
      split <;>
        simp [moveSnake_direction, hrev', handleInput_none]
    · simp only []
      split <;> simp [handleInput_none]
  · rw [updatePlaying_skipTick s inpNone htick]
    constructor
    · simp only []
      split <;> simp [handleInput_none]
    · simp only []
      split <;> simp [handleInput_none]

/-- C7 (confirmed): a buffered exact reversal never changes the committed
direction — not on this move, and (being re-rejected while it stays
buffered) not on any later no-input tick either; a buffered perpendicular
direction becomes the committed direction on this move. -/
theorem C7_reversal_guard (g : Game) (hd : isUnitDir g.direction)
    (hb : isUnitDir g.nextDirection) :
    (g.nextDirection = ⟨-g.direction.X, -g.direction.Y⟩ →
      (moveSnake g).direction = g.direction ∧
      (moveSnake g).nextDirection = g.nextDirection ∧
      ∀ n, ((fun s => updatePlaying s inpNone)^[n] g).direction = g.direction) ∧
    (g.direction.X * g.nextDirection.X + g.direction.Y * g.nextDirection.Y = 0 →
      (moveSnake g).direction = g.nextDirection) := by
  constructor
  · intro hrev
    refine ⟨?_, moveSnake_nextDirection g, ?_⟩
    · rw [moveSnake_direction, commitDirection_rev g hrev]
    · have key : ∀ n, ((fun s => updatePlaying s inpNone)^[n] g).direction = g.direction ∧
          ((fun s => updatePlaying s inpNone)^[n] g).nextDirection = g.nextDirection := by
        intro n
        induction n with
        | zero => exact ⟨rfl, rfl⟩
        | succ n ih =>
          rw [Function.iterate_succ_apply']
          have hs : ((fun s => updatePlaying s inpNone)^[n] g).nextDirection =
              ⟨-((fun s => updatePlaying s inpNone)^[n] g).direction.X,
               -((fun s => updatePlaying s inpNone)^[n] g).direction.Y⟩ := by
            rw [ih.1, ih.2, hrev]
          have hstep := updatePlaying_rev ((fun s => updatePlaying s inpNone)^[n] g) hs
          exact ⟨by rw [hstep.1, ih.1], by rw [hstep.2, ih.2]⟩
      exact fun n => (key n).1
  · intro hperp
    rw [moveSnake_direction]
    have hne : ¬(g.nextDirection.X = -g.direction.X ∧ g.nextDirection.Y = -g.direction.Y) := by
      rcases hd with h | h | h | h <;> rcases hb with h2 | h2 | h2 | h2 <;>
        rw [h, h2] at hperp ⊢ <;> simp_all
    rw [commitDirection_commit g hne]

/-- Witness for C7: with committed direction right and buffered direction
left the commit is refused; with buffered direction up it is taken. -/
theorem C7_reversal_guard_witness :
    (moveSnake { base5 with nextDirection := ⟨-1, 0⟩ }).direction = ⟨1, 0⟩ ∧
    (moveSnake { base5 with nextDirection := ⟨0, -1⟩ }).direction = ⟨0, -1⟩ :=
  ⟨((C7_reversal_guard { base5 with nextDirection := ⟨-1, 0⟩ } (by decide) (by decide)).1
      (by decide)).1,
   (C7_reversal_guard { base5 with nextDirection := ⟨0, -1⟩ } (by decide) (by decide)).2
      (by decide)⟩

/-- The head `moveSnake` computes inside a movement tick is
`candidateHead`. -/
theorem candidateHead_spec (g : Game) (inp : DirInput) :
    newHeadOf (commitDirection { handleInput g inp with moveCounter := 0 }) =
      candidateHead g inp := by
  unfold newHeadOf candidateHead
  have hd : (commitDirection { handleInput g inp with moveCounter := 0 }).direction =
      (commitDirection (handleInput g inp)).direction :=
    commitDirection_direction_congr _ _ rfl rfl
  rw [hd]
  simp

/-- C5 (amended): when the candidate head of a movement tick collides, the
status becomes Lost and the body, food set, score and viewport offset are
untouched, and no enemy is removed; but the power-up countdown is *not*
frozen — it still decrements by one that tick when active (and the enemies
still take their movement step, cf. `C5_counterexample`). -/
theorem C5_collision_freeze (g : Game) (inp : DirInput)
    (hst : g.state = GameState.StatePlaying)
    (htick : 10 ≤ g.moveCounter + 1)
    (hcol : isCollision g (candidateHead g inp) = true) :
    (updatePlaying g inp).state = GameState.StateGameOver ∧
    (updatePlaying g inp).snake = g.snake ∧
    (updatePlaying g inp).foods = g.foods ∧
    (updatePlaying g inp).score = g.score ∧
    (updatePlaying g inp).viewportX = g.viewportX ∧
    (updatePlaying g inp).enemies.length = g.enemies.length ∧
    (updatePlaying g inp).powerUpTimer =
      (if 0 < g.powerUpTimer then g.powerUpTimer - 1 else g.powerUpTimer) := by
  rw [updatePlaying_moveTick g inp htick]
  have hc : isCollision (commitDirection { handleInput g inp with moveCounter := 0 })
      (newHeadOf (commitDirection { handleInput g inp with moveCounter := 0 })) = true := by
    rw [candidateHead_spec g inp,
      isCollision_congr (commitDirection { handleInput g inp with moveCounter := 0 }) g
        (candidateHead g inp) (by simp) (by simp)]
    exact hcol
  rw [moveSnake_collision _ hc]
  by_cases hp : 0 < g.powerUpTimer <;> simp [hp]

/-- C5 (refuted as stated): the claim freezes the power-up timer on the
losing tick, but the countdown still runs: from `gC5` (timer 50, head
about to hit a wall) the tick ends Lost with timer 49. -/
theorem C5_counterexample :
    gC5.powerUpTimer = 50 ∧
    isCollision gC5 (candidateHead gC5 inpNone) = true ∧
    (updatePlaying gC5 inpNone).state = GameState.StateGameOver ∧
    (updatePlaying gC5 inpNone).powerUpTimer = 49 := by decide

/-- Witness for C5 on the concrete wall-collision state. -/
theorem C5_collision_freeze_witness :
    (updatePlaying gC5 inpNone).state = GameState.StateGameOver ∧
    (updatePlaying gC5 inpNone).snake = gC5.snake ∧
    (updatePlaying gC5 inpNone).foods = gC5.foods :=
  ⟨(C5_collision_freeze gC5 inpNone (by decide) (by decide) (by decide)).1,
   (C5_collision_freeze gC5 inpNone (by decide) (by decide) (by decide)).2.1,
   (C5_collision_freeze gC5 inpNone (by decide) (by decide) (by decide)).2.2.1⟩

/-- C6 (amended): when the candidate head of a movement tick is the exit,
the status becomes Won, the new head is prepended with the tail kept, and
the food set, score and viewport offset are untouched with no enemy
removed; but the enemies still take their movement step that tick and an
active power-up timer still decrements (cf. `C6_counterexample`). -/
theorem C6_win_skip (g : Game) (inp : DirInput)
    (hst : g.state = GameState.StatePlaying)
    (htick : 10 ≤ g.moveCounter + 1)
    (hnc : isCollision g (candidateHead g inp) = false)
    (hex : candidateHead g inp = g.exit) :
    (updatePlaying g inp).state = GameState.StateWin ∧
    (updatePlaying g inp).snake = candidateHead g inp :: g.snake ∧
    (updatePlaying g inp).foods = g.foods ∧
    (updatePlaying g inp).score = g.score ∧
    (updatePlaying g inp).viewportX = g.viewportX ∧
    (updatePlaying g inp).enemies.length = g.enemies.length ∧
    (updatePlaying g inp).powerUpTimer =
      (if 0 < g.powerUpTimer then g.powerUpTimer - 1 else g.powerUpTimer) := by
  rw [updatePlaying_moveTick g inp htick]
  have hc : isCollision (commitDirection { handleInput g inp with moveCounter := 0 })
      (newHeadOf (commitDirection { handleInput g inp with moveCounter := 0 })) = false := by
    rw [candidateHead_spec g inp,
      isCollision_congr (commitDirection { handleInput g inp with moveCounter := 0 }) g
        (candidateHead g inp) (by simp) (by simp)]
    exact hnc
  have hex' : newHeadOf (commitDirection { handleInput g inp with moveCounter := 0 }) =
      (commitDirection { handleInput g inp with moveCounter := 0 }).exit := by
    rw [candidateHead_spec g inp]
    simp only [commitDirection_exit]
    simpa using hex
  rw [moveSnake_win _ hc hex', candidateHead_spec g inp]
  by_cases hp : 0 < g.powerUpTimer <;> simp [hp]

/-- C6 (refuted as stated): on the winning tick of `gC6` the enemy still
takes its evasion step, from `(4,1)` to `(4,2)`, and the active power-up
timer still drops from 10 to 9, though the claim says the enemy set and
the timer stay as they were. -/
theorem C6_counterexample :
    (updatePlaying gC6 inpNone).state = GameState.StateWin ∧
    gC6.powerUpTimer = 10 ∧ (updatePlaying gC6 inpNone).powerUpTimer = 9 ∧
    gC6.enemies = [⟨⟨4, 1⟩⟩] ∧ (updatePlaying gC6 inpNone).enemies = [⟨⟨4, 2⟩⟩] := by decide

/-- Witness for C6 on the concrete winning state. -/
theorem C6_win_skip_witness :
    (updatePlaying gC6 inpNone).state = GameState.StateWin ∧
    (updatePlaying gC6 inpNone).snake = candidateHead gC6 inpNone :: gC6.snake ∧
    (updatePlaying gC6 inpNone).score = gC6.score :=
  ⟨(C6_win_skip gC6 inpNone (by decide) (by decide) (by decide) (by decide)).1,
   (C6_win_skip gC6 inpNone (by decide) (by decide) (by decide) (by decide)).2.1,
   (C6_win_skip gC6 inpNone (by decide) (by decide) (by decide) (by decide)).2.2.2.1⟩

/-- The power-up countdown step leaves the `snake` field unchanged. -/
@[simp] theorem timerStep_snake (h' : Game) :
    (if 0 < h'.powerUpTimer then { h' with powerUpTimer := h'.powerUpTimer - 1 }
     else h').snake = h'.snake := by
  split <;> rfl

/-- The power-up countdown step leaves the `foods` field unchanged. -/
@[simp] theorem timerStep_foods (h' : Game) :
    (if 0 < h'.powerUpTimer then { h' with powerUpTimer := h'.powerUpTimer - 1 }
     else h').foods = h'.foods := by
  split <;> rfl

/-- The power-up countdown step leaves the `state` field unchanged. -/
@[simp] theorem timerStep_state (h' : Game) :
    (if 0 < h'.powerUpTimer then { h' with powerUpTimer := h'.powerUpTimer - 1 }
     else h').state = h'.state := by
  split <;> rfl

/-- The power-up countdown step leaves the `score` field unchanged. -/
@[simp] theorem timerStep_score (h' : Game) :
    (if 0 < h'.powerUpTimer then { h' with powerUpTimer := h'.powerUpTimer - 1 }
     else h').score = h'.score := by
  split <;> rfl

/-- The power-up countdown step leaves the `enemies` field unchanged. -/
@[simp] theorem timerStep_enemies (h' : Game) :
    (if 0 < h'.powerUpTimer then { h' with powerUpTimer := h'.powerUpTimer - 1 }
     else h').enemies = h'.enemies := by
  split <;> rfl

/-- The power-up countdown step leaves the `viewportX` field unchanged. -/
@[simp] theorem timerStep_viewportX (h' : Game) :
    (if 0 < h'.powerUpTimer then { h' with powerUpTimer := h'.powerUpTimer - 1 }
     else h').viewportX = h'.viewportX := by
  split <;> rfl

/-- Removing the first matching food shortens the list by exactly one. -/
theorem eatFood_length (fs : List Point) (h : Point) (fs' : List Point)
    (heq : eatFood fs h = some fs') : fs'.length + 1 = fs.length := by
  induction fs generalizing fs' with
  | nil => simp [eatFood] at heq
  | cons f rest ih =>
    rw [eatFood] at heq
    by_cases hf : f = h
    · rw [if_pos hf] at heq
      cases heq
      simp
    · rw [if_neg hf] at heq
      cases hrec : eatFood rest h with
      | none => rw [hrec] at heq; simp at heq
      | some fs2 =>
        rw [hrec] at heq
        simp at heq
        have := ih fs2 hrec
        rw [← heq]
        simpa using this

/-- The enemy check leaves the status alone or sets it to game over. -/
theorem checkEnemyCollision_state (g : Game) :
    (checkEnemyCollision g).state = g.state ∨
    (checkEnemyCollision g).state = GameState.StateGameOver := by
  unfold checkEnemyCollision
  cases hsp : splitAtHead (headD g.snake) g.enemies with
  | none => left; rfl
  | some ba =>
    by_cases hp : 0 < g.powerUpTimer
    · left; simp [if_pos hp]
    · right; simp [if_neg hp]

/-- After the food step of an ordinary move, the status can only be the
incoming one or game over — never a fresh win. -/
theorem post_state_ne_win (g0 : Game) (h : g0.state ≠ GameState.StateWin) :
    (adjustViewport (checkEnemyCollision g0)).state ≠ GameState.StateWin := by
  rw [adjustViewport_state]
  rcases checkEnemyCollision_state g0 with hs | hs <;> rw [hs]
  · exact h
  · simp

/-- Body-plus-food conservation across one `moveSnake` call: the winning
move adds one to the sum (head prepended, no food taken), every other move
preserves it; and the food count drops by at most one. -/
theorem moveSnake_conservation (g : Game) (hst : g.state = GameState.StatePlaying) :
    (moveSnake g).snake.length + (moveSnake g).foods.length
      = g.snake.length + g.foods.length +
        (if (moveSnake g).state = GameState.StateWin then 1 else 0) ∧
    ((moveSnake g).foods.length = g.foods.length ∨
     (moveSnake g).foods.length + 1 = g.foods.length) := by
  by_cases hc : isCollision (commitDirection g) (newHeadOf (commitDirection g)) = true
  · rw [moveSnake_collision g hc]
    simp
  · have hcf : isCollision (commitDirection g) (newHeadOf (commitDirection g)) = false := by
      simpa using hc
    by_cases hex : newHeadOf (commitDirection g) = (commitDirection g).exit
    · rw [moveSnake_win g hcf hex]
      constructor
      · simp
        omega
      · simp
    · rw [moveSnake_step g hcf hex]
      cases heat : eatFood (commitDirection g).foods (newHeadOf (commitDirection g)) with
      | some fs =>
        rw [commitDirection_foods] at heat
        have hlen := eatFood_length g.foods _ fs heat
        have hne := post_state_ne_win
          { commitDirection g with
              snake := newHeadOf (commitDirection g) :: (commitDirection g).snake,
              score := (commitDirection g).score + 1, foods := fs,
              powerUpTimer := POWERUP_TIME } (by simp [hst])
        rw [if_neg hne]
        simp
        omega
      | none =>
        have hne := post_state_ne_win
          { commitDirection g with
              snake :=
                (newHeadOf (commitDirection g) :: (commitDirection g).snake).dropLast }
          (by simp [hst])
        rw [if_neg hne]
        simp

/-- C2 (amended): on every Playing tick the quantity body length + food
count is conserved, except that the tick transitioning to Won increases it
by one: the winning move prepends the head, keeps the tail, and consumes
no food (the exit check precedes the food check), so on the Won tick the
body length is initial length + food consumed + 1.  Food drops by at most
one per tick, and by one exactly when the body grows (while not winning). -/
theorem C2_growth (g : Game) (inp : DirInput)
    (hst : g.state = GameState.StatePlaying) :
    (updatePlaying g inp).snake.length + (updatePlaying g inp).foods.length
      = g.snake.length + g.foods.length +
        (if (updatePlaying g inp).state = GameState.StateWin then 1 else 0) ∧
    ((updatePlaying g inp).foods.length = g.foods.length ∨
     (updatePlaying g inp).foods.length + 1 = g.foods.length) := by
  by_cases htick : 10 ≤ g.moveCounter + 1
  · rw [updatePlaying_moveTick g inp htick]
    have hmain := moveSnake_conservation { handleInput g inp with moveCounter := 0 }
      (by simp [hst])
    have hsw : ({ handleInput g inp with moveCounter := 0 } : Game).snake = g.snake := by
      simp
    have hfd : ({ handleInput g inp with moveCounter := 0 } : Game).foods = g.foods := by
      simp
    rw [hsw, hfd] at hmain
    simp only [timerStep_snake, timerStep_foods, timerStep_state]
    simp only [moveEnemies_snake, moveEnemies_foods, moveEnemies_state]
    dsimp only at hmain ⊢
    exact hmain
  · rw [updatePlaying_skipTick g inp htick]
    by_cases hp : 0 < g.powerUpTimer <;> simp [hp, hst]

/-- C2 (refuted as stated): the winning move grows the body without any
food being consumed.  From `gC2` (length-1 snake stepping onto the exit)
the tick ends Won with body length 2, score 0 and the food set intact. -/
theorem C2_counterexample :
    gC2.snake.length = 1 ∧ (updatePlaying gC2 inpNone).snake.length = 2 ∧
    (updatePlaying gC2 inpNone).score = 0 ∧
    (updatePlaying gC2 inpNone).foods = gC2.foods ∧
    (updatePlaying gC2 inpNone).state = GameState.StateWin := by decide

/-- Witness for C2 on a concrete non-winning tick. -/
theorem C2_growth_witness :
    (updatePlaying base5 inpNone).snake.length + (updatePlaying base5 inpNone).foods.length
      = base5.snake.length + base5.foods.length +
        (if (updatePlaying base5 inpNone).state = GameState.StateWin then 1 else 0) :=
  (C2_growth base5 inpNone (by decide)).1

/-- The enemy scan finds nothing exactly when no enemy is on the head. -/
theorem splitAtHead_none (h : Point) (l : List Enemy) :
    splitAtHead h l = none ↔ ∀ e ∈ l, e.Position ≠ h := by
  induction l with
  | nil => simp [splitAtHead]
  | cons e es ih =>
    rw [splitAtHead]
    by_cases hpos : e.Position = h
    · rw [if_pos hpos]
      simp [hpos]
    · rw [if_neg hpos]
      simp [Option.map_eq_none', ih, hpos]

/-- A successful enemy scan exhibits an enemy on the head. -/
theorem splitAtHead_some_mem (h : Point) (l : List Enemy) (ba : List Enemy × List Enemy)
    (hs : splitAtHead h l = some ba) : ∃ e ∈ l, e.Position = h := by
  induction l generalizing ba with
  | nil => simp [splitAtHead] at hs
  | cons e es ih =>
    rw [splitAtHead] at hs
    by_cases hpos : e.Position = h
    · exact ⟨e, List.mem_cons_self e es, hpos⟩
    · rw [if_neg hpos] at hs
      rw [Option.map_eq_some'] at hs
      obtain ⟨ba', hba', _⟩ := hs
      obtain ⟨e', he', hpe⟩ := ih ba' hba'
      exact ⟨e', List.mem_cons_of_mem e he', hpe⟩

/-- A successful enemy scan removes exactly one enemy. -/
theorem splitAtHead_some_len (h : Point) (l : List Enemy) (ba : List Enemy × List Enemy)
    (hs : splitAtHead h l = some ba) : (ba.1 ++ ba.2).length + 1 = l.length := by
  induction l generalizing ba with
  | nil => simp [splitAtHead] at hs
  | cons e es ih =>
    rw [splitAtHead] at hs
    by_cases hpos : e.Position = h
    · rw [if_pos hpos] at hs
      cases hs
      simp
    · rw [if_neg hpos] at hs
      rw [Option.map_eq_some'] at hs
      obtain ⟨ba', hba', hmap⟩ := hs
      have := ih ba' hba'
      rw [← hmap]
      simp at this ⊢
      omega

/-- C3 (amended): the enemy-versus-head resolution runs *inside the
actor's move, before the enemies move*, comparing the enemies' pre-move
positions with the actor's new head: the first enemy found there is eaten
(+5, removed from the set, no status change) under an active power-up and
ends the game otherwise; moving the enemies afterwards never changes
status, score or body, so an enemy stepping onto the head is only resolved
on the next movement tick. -/
theorem C3_enemy_check (g : Game) :
    (moveEnemies g).state = g.state ∧
    (moveEnemies g).score = g.score ∧
    (moveEnemies g).snake = g.snake ∧
    ((checkEnemyCollision g).state = GameState.StateGameOver ↔
      (g.state = GameState.StateGameOver ∨
       (g.powerUpTimer ≤ 0 ∧ ∃ e ∈ g.enemies, e.Position = headD g.snake))) ∧
    (0 < g.powerUpTimer →
      ((∃ e ∈ g.enemies, e.Position = headD g.snake) →
        (checkEnemyCollision g).score = g.score + 5 ∧
        (checkEnemyCollision g).enemies.length + 1 = g.enemies.length) ∧
      ((∀ e ∈ g.enemies, e.Position ≠ headD g.snake) → checkEnemyCollision g = g)) := by
  refine ⟨rfl, rfl, rfl, ?_, ?_⟩ <;> unfold checkEnemyCollision
  · cases hsp : splitAtHead (headD g.snake) g.enemies with
    | none =>
      have hno := (splitAtHead_none (headD g.snake) g.enemies).mp hsp
      simp only []
      constructor
      · intro hgo; exact Or.inl hgo
      · rintro (hgo | ⟨_, e, he, hpe⟩)
        · exact hgo
        · exact absurd hpe (hno e he)
    | some ba =>
      have hmem := splitAtHead_some_mem (headD g.snake) g.enemies ba hsp
      by_cases hp : 0 < g.powerUpTimer
      · dsimp only
        rw [if_pos hp]
        constructor
        · intro hgo; exact Or.inl hgo
        · rintro (hgo | ⟨hle, _⟩)
          · exact hgo
          · omega
      · dsimp only
        rw [if_neg hp]
        constructor
        · intro _; exact Or.inr ⟨by omega, hmem⟩
        · intro _; rfl
  · intro hp
    cases hsp : splitAtHead (headD g.snake) g.enemies with
    | none =>
      have hno := (splitAtHead_none (headD g.snake) g.enemies).mp hsp
      refine ⟨?_, fun _ => rfl⟩
      rintro ⟨e, he, hpe⟩
      exact absurd hpe (hno e he)
    | some ba =>
      have hlen := splitAtHead_some_len (headD g.snake) g.enemies ba hsp
      have hmem := splitAtHead_some_mem (headD g.snake) g.enemies ba hsp
      dsimp only
      rw [if_pos hp]
      refine ⟨fun _ => ⟨rfl, by simpa using hlen⟩, fun hno => ?_⟩
      obtain ⟨e, he, hpe⟩ := hmem
      exact absurd hpe (hno e he)

/-- C3 (refuted as stated): in `gC3` the snake moves to `(1,0)` and only
then does the enemy at `(2,0)` move — onto the very head cell — with no
power-up active; the tick nevertheless ends still Playing, because the
enemy-versus-head check ran before the enemies moved. -/
theorem C3_counterexample :
    gC3.powerUpTimer = 0 ∧
    (updatePlaying gC3 inpNone).state = GameState.StatePlaying ∧
    (updatePlaying gC3 inpNone).enemies = [⟨⟨1, 0⟩⟩] ∧
    headD (updatePlaying gC3 inpNone).snake = ⟨1, 0⟩ := by decide

/-- Witness for C3 on a concrete powered overlap. -/
theorem C3_enemy_check_witness :
    (checkEnemyCollision gC3W).score = gC3W.score + 5 ∧
    (checkEnemyCollision gC3W).enemies.length + 1 = gC3W.enemies.length ∧
    (moveEnemies gC3W).state = gC3W.state :=
  ⟨(((C3_enemy_check gC3W).2.2.2.2 (by decide)).1 (by decide)).1,
   (((C3_enemy_check gC3W).2.2.2.2 (by decide)).1 (by decide)).2,
   (C3_enemy_check gC3W).1⟩

/-- One parsed character only adds the current (in-range) position. -/
theorem parseChar_preserve (w h : Int) (p : Parsed) (pos : Point) (c : Char)
    (hp : PosOK w h p) (hpos : inBoundsP w h pos) : PosOK w h (parseChar p pos c) := by
  obtain ⟨h1, h2, h3, h4⟩ := hp
  unfold parseChar
  split_ifs with hF hS hE hX
  · refine ⟨?_, h2, h3, h4⟩
    intro q hq
    rcases List.mem_append.mp hq with hq | hq
    · exact h1 q hq
    · rw [List.mem_singleton] at hq; subst hq; exact hpos
  · refine ⟨h1, ?_, h3, fun _ => by simp⟩
    intro q hq
    rw [List.mem_singleton] at hq; subst hq; exact hpos
  · exact ⟨h1, h2, h3, h4⟩
  · refine ⟨h1, h2, ?_, h4⟩
    intro e he
    rcases List.mem_append.mp he with he | he
    · exact h3 e he
    · rw [List.mem_singleton] at he; subst he; exact hpos
  · exact ⟨h1, h2, h3, h4⟩

/-- The inner character loop keeps every collected position on the grid
when the scanned span fits inside the row. -/
theorem parseLineAux_preserve (w h y : Int) (cs : List Char) :
    ∀ (x : Int) (p : Parsed), PosOK w h p → 0 ≤ x → x + cs.length ≤ w →
      0 ≤ y → y < h → PosOK w h (parseLineAux y x p cs) := by
  induction cs with
  | nil => intro x p hp _ _ _ _; exact hp
  | cons c cs ih =>
    intro x p hp hx hxw hy hyh
    rw [parseLineAux]
    apply ih (x + 1)
    · apply parseChar_preserve w h p ⟨x, y⟩ c hp
      refine ⟨hx, ?_, hy, hyh⟩
      show x < w
      simp only [List.length_cons] at hxw
      omega
    · omega
    · simp only [List.length_cons] at hxw
      omega
    · exact hy
    · exact hyh

/-- The outer line loop keeps every collected position on the grid when
all rows have width `w` and the scanned span of rows fits inside `h`. -/
theorem parseLinesAux_preserve (w h : Int) (ls : List (List Char)) :
    ∀ (y : Int) (p : Parsed), PosOK w h p → 0 ≤ y → y + ls.length ≤ h →
      (∀ l ∈ ls, (l.length : Int) = w) → PosOK w h (parseLinesAux y p ls) := by
  induction ls with
  | nil => intro y p hp _ _ _; exact hp
  | cons l ls ih =>
    intro y p hp hy hyh hrows
    rw [parseLinesAux]
    apply ih (y + 1)
    · apply parseLineAux_preserve w h y l 0 p hp (by omega)
      · rw [hrows l (List.mem_cons_self l ls)]
        simp
      · exact hy
      · simp only [List.length_cons] at hyh
        omega
    · omega
    · simp only [List.length_cons] at hyh
      omega
    · exact fun l' hl' => hrows l' (List.mem_cons_of_mem l hl')

/-- The empty accumulator trivially satisfies `PosOK`. -/
theorem emptyParsed_ok (w h : Int) : PosOK w h emptyParsed := by
  refine ⟨?_, ?_, ?_, ?_⟩ <;> simp [emptyParsed]

/-- A level that loads, with equal-width rows, yields a playing state
satisfying the game invariant. -/
theorem loadLevel_inv (lines : List (List Char)) (g0 : Game)
    (heq : ∀ l ∈ lines, (l.length : Int) = ((lines.headD []).length : Int))
    (hload : loadLevel lines = some g0) :
    GameInv { g0 with state := GameState.StatePlaying } := by
  rw [loadLevel] at hload
  split_ifs at hload with hcond
  cases hload
  push_neg at hcond
  obtain ⟨hS, hE, hF⟩ := hcond
  have hok : PosOK ((lines.headD []).length : Int) (lines.length : Int)
      (parseLinesAux 0 emptyParsed lines) := by
    apply parseLinesAux_preserve _ _ lines 0 emptyParsed
      (emptyParsed_ok _ _) (by omega) (by omega) heq
  obtain ⟨hfoods, hsnake, henem, hs⟩ := hok
  have hSb : (parseLinesAux 0 emptyParsed lines).hasS = true := by
    simpa using hS
  have hne := hs hSb
  have hwpos : 0 < ((lines.headD []).length : Int) := by
    cases hsn : (parseLinesAux 0 emptyParsed lines).snake with
    | nil => exact absurd hsn hne
    | cons q qs =>
      have := hsnake q (by rw [hsn]; exact List.mem_cons_self q qs)
      obtain ⟨hq1, hq2, _, _⟩ := this
      omega
  have hhpos : 0 < (lines.length : Int) := by
    cases hsn : (parseLinesAux 0 emptyParsed lines).snake with
    | nil => exact absurd hsn hne
    | cons q qs =>
      have := hsnake q (by rw [hsn]; exact List.mem_cons_self q qs)
      obtain ⟨_, _, hq3, hq4⟩ := this
      omega
  refine ⟨hwpos, hhpos, by simp, ?_, hne, hsnake, henem, by simp [dirOK], by simp [dirOK]⟩
  intro r hr
  simp only [List.mem_map] at hr
  obtain ⟨l, hl, hrl⟩ := hr
  rw [← hrl]
  simpa using heq l hl

/-- The game invariant contains the collision-check preconditions. -/
theorem GameInv_mazeOK (g : Game) (h : GameInv g) : MazeOK g :=
  ⟨h.1, h.2.1, h.2.2.1, h.2.2.2.1, h.2.2.2.2.1⟩

/-- The optional head of a non-empty list is its defaulted head. -/
theorem head?_eq_headD (l : List Point) (h : l ≠ []) : l.head? = some (headD l) := by
  cases l with
  | nil => exact absurd rfl h
  | cons a t => rfl

/-- The defaulted head of a non-empty list is one of its elements. -/
theorem headD_mem (l : List Point) (h : l ≠ []) : headD l ∈ l := by
  cases l with
  | nil => exact absurd rfl h
  | cons a t => exact List.mem_cons_self a t

/-- On an in-range point of a well-shaped maze the bounds-checked wall
read succeeds with the total read's value. -/
theorem wallAtChecked_eq (maze : List (List Bool)) (w h : Int) (p : Point)
    (hml : (maze.length : Int) = h) (hrows : ∀ r ∈ maze, (r.length : Int) = w)
    (hp : inBoundsP w h p) : wallAtChecked maze p = some (wallAt maze p) := by
  obtain ⟨h1, h2, h3, h4⟩ := hp
  have hyn : p.Y.toNat < maze.length := by omega
  simp only [wallAtChecked, wallAt]
  rw [if_pos ⟨h3, by omega⟩]
  have hrm : maze.getD p.Y.toNat [] ∈ maze := by
    rw [List.getD_eq_getElem maze [] hyn]
    exact List.getElem_mem hyn
  have hrl := hrows _ hrm
  rw [if_pos ⟨h1, by omega⟩]

/-- On an in-range point of a sound state the checked collision test
succeeds with the total test's value. -/
theorem isCollisionChecked_eq (g : Game) (p : Point) (hm : MazeOK g)
    (hp : inBoundsP g.mazeWidth g.mazeHeight p) :
    isCollisionChecked g p = some (isCollision g p) := by
  obtain ⟨hw, hh, hml, hrows, hsn⟩ := hm
  unfold isCollisionChecked isCollision
  rw [wallAtChecked_eq g.maze g.mazeWidth g.mazeHeight p hml hrows hp]
  cases hwall : wallAt g.maze p
  · dsimp only
    simp [List.isEmpty_iff, hsn]
  · dsimp only
    simp

/-- With positive dimensions the checked wrap never divides by zero. -/
theorem wrapPointChecked_eq (w h : Int) (p d : Point) (hw : 0 < w) (hh : 0 < h) :
    wrapPointChecked w h p d = some (wrapPoint w h p d) := by
  unfold wrapPointChecked
  rw [if_neg (by omega)]

/-- The four cardinal moves have components at least `-1`. -/
theorem cardinal_dirOK : ∀ m ∈ cardinalMoves, -1 ≤ m.X ∧ -1 ≤ m.Y := by decide

/-- One checked pursuit-loop step succeeds with the total step's value. -/
theorem stepTowardsChecked_eq (g : Game) (src dst : Point) (acc : Point × Option Int)
    (m : Point) (hm : MazeOK g) (hsrc : 0 ≤ src.X ∧ 0 ≤ src.Y)
    (hmv : -1 ≤ m.X ∧ -1 ≤ m.Y) :
    stepTowardsChecked g src dst (some acc) m = some (stepTowards g src dst acc m) := by
  have h1 := wrapPointChecked_eq g.mazeWidth g.mazeHeight src m hm.1 hm.2.1
  have hbp : inBoundsP g.mazeWidth g.mazeHeight (wrapPoint g.mazeWidth g.mazeHeight src m) :=
    wrapPoint_inBounds _ _ _ _ hm.1 hm.2.1 hsrc.1 hsrc.2 hmv.1 hmv.2
  have h2 := isCollisionChecked_eq g _ hm hbp
  obtain ⟨b, ov⟩ := acc
  unfold stepTowardsChecked stepTowards
  simp only [Option.bind_eq_bind, Option.some_bind, h1, h2]
  cases hc : isCollision g (wrapPoint g.mazeWidth g.mazeHeight src m)
  · simp only [Bool.false_eq_true, if_false]
    cases ov
    · simp
    · dsimp only
      split <;> simp
  · simp

/-- One checked evasion-loop step succeeds with the total step's value. -/
theorem stepAwayChecked_eq (g : Game) (src dst : Point) (acc : Point × Int)
    (m : Point) (hm : MazeOK g) (hsrc : 0 ≤ src.X ∧ 0 ≤ src.Y)
    (hmv : -1 ≤ m.X ∧ -1 ≤ m.Y) :
    stepAwayChecked g src dst (some acc) m = some (stepAway g src dst acc m) := by
  have h1 := wrapPointChecked_eq g.mazeWidth g.mazeHeight src m hm.1 hm.2.1
  have hbp : inBoundsP g.mazeWidth g.mazeHeight (wrapPoint g.mazeWidth g.mazeHeight src m) :=
    wrapPoint_inBounds _ _ _ _ hm.1 hm.2.1 hsrc.1 hsrc.2 hmv.1 hmv.2
  have h2 := isCollisionChecked_eq g _ hm hbp
  unfold stepAwayChecked stepAway
  simp only [Option.bind_eq_bind, Option.some_bind, h1, h2]
  cases hc : isCollision g (wrapPoint g.mazeWidth g.mazeHeight src m)
  · simp only [Bool.false_eq_true, if_false]
    split <;> simp
  · simp

/-- The checked pursuit heuristic succeeds with the heuristic's value. -/
theorem getBestMoveTowardsChecked_eq (g : Game) (src dst : Point) (moves : List Point)
    (hm : MazeOK g) (hsrc : 0 ≤ src.X ∧ 0 ≤ src.Y)
    (hmv : ∀ m ∈ moves, -1 ≤ m.X ∧ -1 ≤ m.Y) :
    getBestMoveTowardsChecked g src dst moves = some (getBestMoveTowards g src dst moves) := by
  unfold getBestMoveTowardsChecked getBestMoveTowards
  have key : ∀ (l : List Point), (∀ m ∈ l, -1 ≤ m.X ∧ -1 ≤ m.Y) →
      ∀ acc, l.foldl (stepTowardsChecked g src dst) (some acc) =
        some (l.foldl (stepTowards g src dst) acc) := by
    intro l
    induction l with
    | nil => intro _ acc; rfl
    | cons m ms ih =>
      intro hl acc
      rw [List.foldl_cons, List.foldl_cons,
        stepTowardsChecked_eq g src dst acc m hm hsrc (hl m (List.mem_cons_self m ms))]
      exact ih (fun x hx => hl x (List.mem_cons_of_mem m hx)) _
  rw [key moves hmv _]
  rfl

/-- The checked evasion heuristic succeeds with the heuristic's value. -/
theorem getBestMoveAwayChecked_eq (g : Game) (src dst : Point) (moves : List Point)
    (hm : MazeOK g) (hsrc : 0 ≤ src.X ∧ 0 ≤ src.Y)
    (hmv : ∀ m ∈ moves, -1 ≤ m.X ∧ -1 ≤ m.Y) :
    getBestMoveAwayChecked g src dst moves = some (getBestMoveAway g src dst moves) := by
  unfold getBestMoveAwayChecked getBestMoveAway
  have key : ∀ (l : List Point), (∀ m ∈ l, -1 ≤ m.X ∧ -1 ≤ m.Y) →
      ∀ acc, l.foldl (stepAwayChecked g src dst) (some acc) =
        some (l.foldl (stepAway g src dst) acc) := by
    intro l
    induction l with
    | nil => intro _ acc; rfl
    | cons m ms ih =>
      intro hl acc
      rw [List.foldl_cons, List.foldl_cons,
        stepAwayChecked_eq g src dst acc m hm hsrc (hl m (List.mem_cons_self m ms))]
      exact ih (fun x hx => hl x (List.mem_cons_of_mem m hx)) _
  rw [key moves hmv _]
  rfl

/-- The pursuit choice is the zero vector or one of the candidates. -/
theorem getBestMoveTowards_mem (g : Game) (src dst : Point) (moves : List Point) :
    getBestMoveTowards g src dst moves = ⟨0, 0⟩ ∨
    getBestMoveTowards g src dst moves ∈ moves := by
  rw [getBestMoveTowards_eq_spec]
  unfold specTowards
  cases hfm : firstMinBy (moveScore g src dst) (survivors g src moves) with
  | none => left; rfl
  | some yv =>
    right
    have hmem := (firstMinBy_mem _ _ _ hfm).1
    unfold survivors at hmem
    exact List.mem_of_mem_filter hmem

/-- The evasion choice is the zero vector or one of the candidates. -/
theorem getBestMoveAway_mem (g : Game) (src dst : Point) (moves : List Point) :
    getBestMoveAway g src dst moves = ⟨0, 0⟩ ∨
    getBestMoveAway g src dst moves ∈ moves := by
  rw [getBestMoveAway_eq_spec]
  unfold specAway
  cases hfm : firstMaxBy (moveScore g src dst) (survivors g src moves) with
  | none => left; rfl
  | some yv =>
    dsimp only
    split
    · right
      have hmem := (firstMaxBy_mem _ _ _ hfm).1
      unfold survivors at hmem
      exact List.mem_of_mem_filter hmem
    · left; rfl

/-- The checked enemy move succeeds with the enemy move's value, which
stays on the grid. -/
theorem moveEnemy_ok (g : Game) (e : Enemy) (hm : MazeOK g)
    (he : inBoundsP g.mazeWidth g.mazeHeight e.Position) :
    moveEnemyChecked g e = some (moveEnemy g e) ∧
    inBoundsP g.mazeWidth g.mazeHeight (moveEnemy g e).Position := by
  have hsrc : 0 ≤ e.Position.X ∧ 0 ≤ e.Position.Y := ⟨he.1, he.2.2.1⟩
  by_cases hp : 0 < g.powerUpTimer
  · have hbm : -1 ≤ (getBestMoveAway g e.Position (headD g.snake) cardinalMoves).X ∧
        -1 ≤ (getBestMoveAway g e.Position (headD g.snake) cardinalMoves).Y := by
      rcases getBestMoveAway_mem g e.Position (headD g.snake) cardinalMoves with hz | hmem
      · rw [hz]; exact ⟨by norm_num, by norm_num⟩
      · exact cardinal_dirOK _ hmem
    have hbp : inBoundsP g.mazeWidth g.mazeHeight
        (wrapPoint g.mazeWidth g.mazeHeight e.Position
          (getBestMoveAway g e.Position (headD g.snake) cardinalMoves)) :=
      wrapPoint_inBounds _ _ _ _ hm.1 hm.2.1 hsrc.1 hsrc.2 hbm.1 hbm.2
    constructor
    · unfold moveEnemyChecked moveEnemy
      rw [head?_eq_headD g.snake hm.2.2.2.2]
      simp only [Option.bind_eq_bind, Option.some_bind, if_pos hp]
      rw [getBestMoveAwayChecked_eq g e.Position (headD g.snake) cardinalMoves hm hsrc
        cardinal_dirOK]
      simp only [Option.some_bind]
      rw [wrapPointChecked_eq _ _ _ _ hm.1 hm.2.1]
      simp only [Option.some_bind]
      rw [isCollisionChecked_eq g _ hm hbp]
      simp only [Option.some_bind]
      split <;> rfl
    · unfold moveEnemy
      simp only [if_pos hp]
      split
      · exact he
      · exact hbp
  · have hbm : -1 ≤ (getBestMoveTowards g e.Position (headD g.snake) cardinalMoves).X ∧
        -1 ≤ (getBestMoveTowards g e.Position (headD g.snake) cardinalMoves).Y := by
      rcases getBestMoveTowards_mem g e.Position (headD g.snake) cardinalMoves with hz | hmem
      · rw [hz]; exact ⟨by norm_num, by norm_num⟩
      · exact cardinal_dirOK _ hmem
    have hbp : inBoundsP g.mazeWidth g.mazeHeight
        (wrapPoint g.mazeWidth g.mazeHeight e.Position
          (getBestMoveTowards g e.Position (headD g.snake) cardinalMoves)) :=
      wrapPoint_inBounds _ _ _ _ hm.1 hm.2.1 hsrc.1 hsrc.2 hbm.1 hbm.2
    constructor
    · unfold moveEnemyChecked moveEnemy
      rw [head?_eq_headD g.snake hm.2.2.2.2]
      simp only [Option.bind_eq_bind, Option.some_bind, if_neg hp]
      rw [getBestMoveTowardsChecked_eq g e.Position (headD g.snake) cardinalMoves hm hsrc
        cardinal_dirOK]
      simp only [Option.some_bind]
      rw [wrapPointChecked_eq _ _ _ _ hm.1 hm.2.1]
      simp only [Option.some_bind]
      rw [isCollisionChecked_eq g _ hm hbp]
      simp only [Option.some_bind]
      split <;> rfl
    · unfold moveEnemy
      simp only [if_neg hp]
      split
      · exact he
      · exact hbp

/-- The checked enemy sweep succeeds with the sweep's values, all of which
stay on the grid. -/
theorem moveEnemies_ok (g : Game) (hm : MazeOK g)
    (hes : ∀ e ∈ g.enemies, inBoundsP g.mazeWidth g.mazeHeight e.Position) :
    moveEnemiesChecked g = some (moveEnemies g) ∧
    ∀ e ∈ (moveEnemies g).enemies, inBoundsP g.mazeWidth g.mazeHeight e.Position := by
  have key : ∀ (l : List Enemy), (∀ e ∈ l, inBoundsP g.mazeWidth g.mazeHeight e.Position) →
      mapOptEnemies (moveEnemyChecked g) l = some (l.map (moveEnemy g)) ∧
      ∀ e ∈ l.map (moveEnemy g), inBoundsP g.mazeWidth g.mazeHeight e.Position := by
    intro l
    induction l with
    | nil => intro _; exact ⟨rfl, by simp⟩
    | cons e es ih =>
      intro hl
      have h1 := moveEnemy_ok g e hm (hl e (List.mem_cons_self e es))
      have h2 := ih (fun x hx => hl x (List.mem_cons_of_mem e hx))
      constructor
      · rw [mapOptEnemies]
        simp only [Option.bind_eq_bind, h1.1, Option.some_bind, h2.1, List.map_cons]
      · intro x hx
        rw [List.map_cons] at hx
        rcases List.mem_cons.mp hx with hx | hx
        · rw [hx]; exact h1.2
        · exact h2.2 x hx
  have hk := key g.enemies hes
  constructor
  · unfold moveEnemiesChecked
    simp only [Option.bind_eq_bind, hk.1, Option.some_bind]
    rfl
  · simpa [moveEnemies] using hk.2

/-- The committed direction is one of the two stored directions. -/
theorem commitDirection_dirOK (g : Game) (hd : dirOK g.direction)
    (hnd : dirOK g.nextDirection) : dirOK (commitDirection g).direction := by
  unfold commitDirection
  split
  · exact hnd
  · exact hd

/-- The invariant survives the direction commit. -/
theorem GameInv_commit (g : Game) (h : GameInv g) : GameInv (commitDirection g) := by
  obtain ⟨h1, h2, h3, h4, h5, h6, h7, h8, h9⟩ := h
  refine ⟨by simpa, by simpa, by simpa, ?_, by simpa, ?_, ?_,
    commitDirection_dirOK g h8 h9, by simpa⟩
  · simpa using h4
  · simpa using h6
  · simpa using h7

/-- Everything kept by the enemy scan was an enemy before. -/
theorem splitAtHead_subset (h : Point) (l : List Enemy) (ba : List Enemy × List Enemy)
    (hs : splitAtHead h l = some ba) : ∀ e ∈ ba.1 ++ ba.2, e ∈ l := by
  induction l generalizing ba with
  | nil => simp [splitAtHead] at hs
  | cons e es ih =>
    rw [splitAtHead] at hs
    by_cases hpos : e.Position = h
    · rw [if_pos hpos] at hs
      cases hs
      intro x hx
      simp at hx
      exact List.mem_cons_of_mem e hx
    · rw [if_neg hpos] at hs
      rw [Option.map_eq_some'] at hs
      obtain ⟨ba', hba', hmap⟩ := hs
      intro x hx
      rw [← hmap] at hx
      simp only [List.cons_append, List.mem_cons, List.mem_append] at hx
      rcases hx with hx | hx | hx
      · rw [hx]; exact List.mem_cons_self e es
      · exact List.mem_cons_of_mem e (ih ba' hba' x (List.mem_append.mpr (Or.inl hx)))
      · exact List.mem_cons_of_mem e (ih ba' hba' x (List.mem_append.mpr (Or.inr hx)))

/-- The invariant survives the enemy check. -/
theorem GameInv_check (g : Game) (h : GameInv g) : GameInv (checkEnemyCollision g) := by
  obtain ⟨h1, h2, h3, h4, h5, h6, h7, h8, h9⟩ := h
  unfold checkEnemyCollision
  cases hsp : splitAtHead (headD g.snake) g.enemies with
  | none => exact ⟨h1, h2, h3, h4, h5, h6, h7, h8, h9⟩
  | some ba =>
    dsimp only
    by_cases hp : 0 < g.powerUpTimer
    · rw [if_pos hp]
      refine ⟨h1, h2, h3, h4, h5, h6, ?_, h8, h9⟩
      intro e he
      exact h7 e (splitAtHead_subset (headD g.snake) g.enemies ba hsp e he)
    · rw [if_neg hp]
      exact ⟨h1, h2, h3, h4, h5, h6, h7, h8, h9⟩

/-- The invariant survives the viewport adjustment. -/
theorem GameInv_adjust (g : Game) (h : GameInv g) : GameInv (adjustViewport g) := by
  rw [adjustViewport_eq]
  exact h

/-- The invariant survives the end-of-tick power-up countdown step. -/
theorem GameInv_timerStep (g : Game) (h : GameInv g) :
    GameInv (if 0 < g.powerUpTimer then { g with powerUpTimer := g.powerUpTimer - 1 }
             else g) := by
  split
  · exact h
  · exact h

/-- Writing a unit vector into the buffered-direction field keeps it a
bounded direction. -/
theorem step_dirOK (g : Game) (c : Prop) [Decidable c] (d : Point) (hd : dirOK d)
    (hnd : dirOK g.nextDirection) :
    dirOK ((if c then { g with nextDirection := d } else g)).nextDirection := by
  split
  · exact hd
  · exact hnd

/-- The buffered direction written by `handleInput` is a unit vector or
the old one. -/
theorem handleInput_dirOK (g : Game) (inp : DirInput) (hnd : dirOK g.nextDirection) :
    dirOK (handleInput g inp).nextDirection := by
  simp only [handleInput]
  apply step_dirOK _ _ _ (by decide)
  apply step_dirOK _ _ _ (by decide)
  apply step_dirOK _ _ _ (by decide)
  apply step_dirOK _ _ _ (by decide)
  exact hnd

/-- The invariant survives the input sampling. -/
theorem GameInv_handleInput (g : Game) (inp : DirInput) (h : GameInv g) :
    GameInv (handleInput g inp) := by
  obtain ⟨h1, h2, h3, h4, h5, h6, h7, h8, h9⟩ := h
  refine ⟨by simpa, by simpa, by simpa, ?_, by simpa, ?_, ?_, by simpa,
    handleInput_dirOK g inp h9⟩
  · simpa using h4
  · simpa using h6
  · simpa using h7

/-- The invariant survives the enemy sweep. -/
theorem GameInv_moveEnemies (g : Game) (h : GameInv g) : GameInv (moveEnemies g) := by
  obtain ⟨h1, h2, h3, h4, h5, h6, h7, h8, h9⟩ := h
  have hb := (moveEnemies_ok g ⟨h1, h2, h3, h4, h5⟩ h7).2
  refine ⟨by simpa, by simpa, by simpa, ?_, by simpa, ?_, ?_, by simpa, by simpa⟩
  · simpa using h4
  · simpa using h6
  · simpa using hb

/-- The checked enemy check succeeds on a non-empty snake. -/
theorem checkEnemyCollisionChecked_eq (g : Game) (h : g.snake ≠ []) :
    checkEnemyCollisionChecked g = some (checkEnemyCollision g) := by
  unfold checkEnemyCollisionChecked
  rw [if_neg (by simp [List.isEmpty_iff, h])]

/-- The checked viewport adjustment succeeds on a non-empty snake. -/
theorem adjustViewportChecked_eq (g : Game) (h : g.snake ≠ []) :
    adjustViewportChecked g = some (adjustViewport g) := by
  unfold adjustViewportChecked
  rw [if_neg (by simp [List.isEmpty_iff, h])]

/-- The checked snake move succeeds with the snake move's value, which
satisfies the invariant again. -/
theorem moveSnake_ok (g : Game) (hinv : GameInv g) :
    moveSnakeChecked g = some (moveSnake g) ∧ GameInv (moveSnake g) := by
  have hcg : GameInv (commitDirection g) := GameInv_commit g hinv
  obtain ⟨c1, c2, c3, c4, c5, c6, c7, c8, c9⟩ := hcg
  have hm : MazeOK (commitDirection g) := ⟨c1, c2, c3, c4, c5⟩
  have hhd : inBoundsP (commitDirection g).mazeWidth (commitDirection g).mazeHeight
      (headD (commitDirection g).snake) := c6 _ (headD_mem _ c5)
  have hnh : inBoundsP (commitDirection g).mazeWidth (commitDirection g).mazeHeight
      (newHeadOf (commitDirection g)) := by
    unfold newHeadOf
    exact wrapPoint_inBounds _ _ _ _ c1 c2 hhd.1 hhd.2.2.1 c8.1 c8.2.2.1
  by_cases hcoll : isCollision (commitDirection g) (newHeadOf (commitDirection g)) = true
  · constructor
    · simp only [moveSnakeChecked]
      rw [head?_eq_headD _ c5]
      simp only [Option.bind_eq_bind, Option.some_bind]
      rw [wrapPointChecked_eq _ _ _ _ c1 c2]
      simp only [Option.some_bind]
      rw [show wrapPoint (commitDirection g).mazeWidth (commitDirection g).mazeHeight
        (headD (commitDirection g).snake) (commitDirection g).direction =
        newHeadOf (commitDirection g) from rfl]
      rw [isCollisionChecked_eq _ _ hm hnh]
      simp only [Option.some_bind]
      rw [if_pos hcoll, moveSnake_collision g hcoll]
    · rw [moveSnake_collision g hcoll]
      exact ⟨c1, c2, c3, c4, c5, c6, c7, c8, c9⟩
  · have hcolf : isCollision (commitDirection g) (newHeadOf (commitDirection g)) = false := by
      simpa using hcoll
    by_cases hex : newHeadOf (commitDirection g) = (commitDirection g).exit
    · constructor
      · simp only [moveSnakeChecked]
        rw [head?_eq_headD _ c5]
        simp only [Option.bind_eq_bind, Option.some_bind]
        rw [wrapPointChecked_eq _ _ _ _ c1 c2]
        simp only [Option.some_bind]
        rw [show wrapPoint (commitDirection g).mazeWidth (commitDirection g).mazeHeight
          (headD (commitDirection g).snake) (commitDirection g).direction =
          newHeadOf (commitDirection g) from rfl]
        rw [isCollisionChecked_eq _ _ hm hnh]
        simp only [Option.some_bind]
        rw [if_neg hcoll, if_pos hex, moveSnake_win g hcolf hex]
      · rw [moveSnake_win g hcolf hex]
        refine ⟨c1, c2, c3, c4, by simp, ?_, c7, c8, c9⟩
        intro p hp
        rcases List.mem_cons.mp hp with hp | hp
        · rw [hp]; exact hnh
        · exact c6 p hp
    · have hdl : ((newHeadOf (commitDirection g) :: (commitDirection g).snake).dropLast) ≠ [] := by
        intro hnil
        have hlen : ((newHeadOf (commitDirection g) ::
            (commitDirection g).snake).dropLast).length = (commitDirection g).snake.length := by
          simp
        rw [hnil] at hlen
        simp at hlen
        exact hinv.2.2.2.2.1 (List.length_eq_zero.mp hlen.symm)
      constructor
      · simp only [moveSnakeChecked]
        rw [head?_eq_headD _ c5]
        simp only [Option.bind_eq_bind, Option.some_bind]
        rw [wrapPointChecked_eq _ _ _ _ c1 c2]
        simp only [Option.some_bind]
        rw [show wrapPoint (commitDirection g).mazeWidth (commitDirection g).mazeHeight
          (headD (commitDirection g).snake) (commitDirection g).direction =
          newHeadOf (commitDirection g) from rfl]
        rw [isCollisionChecked_eq _ _ hm hnh]
        simp only [Option.some_bind]
        rw [if_neg hcoll, if_neg hex, moveSnake_step g hcolf hex]
        cases heat : eatFood (commitDirection g).foods (newHeadOf (commitDirection g)) with
        | some fs =>
          dsimp only
          rw [checkEnemyCollisionChecked_eq _ (by simp)]
          simp only [Option.some_bind]
          rw [adjustViewportChecked_eq _ (by simp)]
        | none =>
          dsimp only
          rw [checkEnemyCollisionChecked_eq _ (by simpa using hdl)]
          simp only [Option.some_bind]
          rw [adjustViewportChecked_eq _ (by simpa using hdl)]
      · rw [moveSnake_step g hcolf hex]
        cases heat : eatFood (commitDirection g).foods (newHeadOf (commitDirection g)) with
        | some fs =>
          dsimp only
          apply GameInv_adjust
          apply GameInv_check
          refine ⟨c1, c2, c3, c4, by simp, ?_, c7, c8, c9⟩
          intro p hp
          rcases List.mem_cons.mp hp with hp | hp
          · rw [hp]; exact hnh
          · exact c6 p hp
        | none =>
          dsimp only
          apply GameInv_adjust
          apply GameInv_check
          refine ⟨c1, c2, c3, c4, hdl, ?_, c7, c8, c9⟩
          intro p hp
          have hp' := List.dropLast_subset _ hp
          rcases List.mem_cons.mp hp' with hp' | hp'
          · rw [hp']; exact hnh
          · exact c6 p hp'

/-- The checked Playing tick succeeds with the tick's value, which
satisfies the invariant again. -/
theorem updatePlaying_ok (g : Game) (inp : DirInput) (hinv : GameInv g) :
    updatePlayingChecked g inp = some (updatePlaying g inp) ∧
    GameInv (updatePlaying g inp) := by
  have hhi : GameInv (handleInput g inp) := GameInv_handleInput g inp hinv
  have hgX : GameInv { handleInput g inp with moveCounter := 0 } := hhi
  by_cases htick : 10 ≤ g.moveCounter + 1
  · have hcond : 10 ≤ (handleInput g inp).moveCounter + 1 := by
      rw [handleInput_moveCounter]; exact htick
    have hms := moveSnake_ok { handleInput g inp with moveCounter := 0 } hgX
    have hmeInv := GameInv_moveEnemies _ hms.2
    have hme := moveEnemies_ok (moveSnake { handleInput g inp with moveCounter := 0 })
      (GameInv_mazeOK _ hms.2) hms.2.2.2.2.2.2.2.1
    constructor
    · rw [updatePlaying_moveTick g inp htick]
      simp only [updatePlayingChecked]
      rw [if_pos hcond]
      simp only [Option.bind_eq_bind]
      rw [hms.1]
      simp only [Option.some_bind]
      rw [hme.1]
      simp only [Option.some_bind]
      split <;> rfl
    · rw [updatePlaying_moveTick g inp htick]
      simp only []
      exact GameInv_timerStep _ hmeInv
  · have hcond : ¬10 ≤ (handleInput g inp).moveCounter + 1 := by
      rw [handleInput_moveCounter]; exact htick
    constructor
    · rw [updatePlaying_skipTick g inp htick]
      simp only [updatePlayingChecked]
      rw [if_neg hcond]
      simp only [Option.bind_eq_bind, Option.some_bind]
      simp only [handleInput_powerUpTimer, handleInput_moveCounter]
      split <;> rfl
    · rw [updatePlaying_skipTick g inp htick]
      simp only []
      split
      · exact hhi
      · exact hhi

/-- C10 (confirmed): a freshly loaded level with equal-length rows yields
a playing state satisfying the game invariant (all snake cells and enemy
positions on the grid, well-shaped wall grid, non-empty body, bounded
directions); every Playing tick preserves that invariant; and under it
the instrumented tick — which returns `none` exactly where the Go code
would panic on an index (or divide-by-zero) — always succeeds with the
ordinary tick's value, so the update never panics. -/
theorem C10_bounds_safety (lines : List (List Char)) (g0 g : Game) (inp : DirInput)
    (heq : ∀ l ∈ lines, (l.length : Int) = ((lines.headD []).length : Int))
    (hload : loadLevel lines = some g0) :
    GameInv { g0 with state := GameState.StatePlaying } ∧
    (GameInv g → GameInv (updatePlaying g inp) ∧
      updatePlayingChecked g inp = some (updatePlaying g inp)) :=
  ⟨loadLevel_inv lines g0 heq hload,
   fun hg => ⟨(updatePlaying_ok g inp hg).2, (updatePlaying_ok g inp hg).1⟩⟩

/-- Witness for C10 on a concrete level and a concrete playing state. -/
theorem C10_bounds_safety_witness :
    GameInv { gW0 with state := GameState.StatePlaying } ∧
    updatePlayingChecked base5 inpNone = some (updatePlaying base5 inpNone) :=
  ⟨(C10_bounds_safety linesW gW0 base5 inpNone (by decide) (by decide)).1,
   ((C10_bounds_safety linesW gW0 base5 inpNone (by decide) (by decide)).2 (by decide)).2⟩
